import Mathlib

set_option maxRecDepth 100000

/-!
Verification of the offline license issuance/verification subsystem of the
pausaler-app repository (Rust sources under `src/src-tauri/src/license/` and
`src/license-generator/src/main.rs`).

Modelling conventions:
* Rust `String` / `Vec<u8>` values are modelled as `List Nat` of byte values
  (Rust strings are UTF-8 byte sequences; every delimiter the code splits on
  is ASCII, so byte-level splitting coincides with Rust's char splitting).
* The `base64` crate engines `URL_SAFE_NO_PAD` and `STANDARD` are implemented
  directly (no-pad decoding rejects padding, length ≡ 1 (mod 4) and non-zero
  trailing bits; standard decoding requires canonical padding).
* `serde_json` serialization of the two payload structs is implemented
  byte-exactly (compact output, struct field order, `skip_serializing_if`
  for the optional field, string escaping as serde_json emits it).
  Deserialization is modelled on the canonical grammar the serializers emit
  (fixed field order, optional `valid_until`, full string unescaping);
  claims about parsing are stated conditionally on a successful parse.
* The `time` crate's RFC3339 parsing/formatting is implemented over instants
  measured in nanoseconds since the Unix epoch (parsing) and whole seconds
  (formatting, which the issuer only uses on nanosecond-truncated values).
* Ed25519 (the `ed25519_dalek` library) is modelled parametrically by a
  `SigModel` structure: byte-level `pubkey`/`sign`/`verifyStrict`/`keyOk`
  functions together with the functional-correctness facts the library
  guarantees (signatures verify, public keys are 32 valid bytes).  Theorems
  quantify over any such model; concrete witnesses instantiate a toy model.
-/

/-- Byte list of an ASCII Lean string literal (all literals used are ASCII). -/
def asciiBytes (s : String) : List Nat := s.data.map Char.toNat

/-- All bytes of the list are valid `u8` values. -/
def bytesOk (l : List Nat) : Prop := ∀ b ∈ l, b < 256

instance (l : List Nat) : Decidable (bytesOk l) := by
  unfold bytesOk; infer_instance

/-- Prepend a byte onto the first group of a split result. -/
def consHead (b : Nat) : List (List Nat) → List (List Nat)
  | [] => [[b]]
  | cur :: rs => (b :: cur) :: rs

/-- Rust `str::split(sep)` at the byte level: splitting on an ASCII byte. -/
def splitOnByte (sep : Nat) : List Nat → List (List Nat)
  | [] => [[]]
  | b :: rest =>
    if b = sep then [] :: splitOnByte sep rest
    else consHead b (splitOnByte sep rest)

/-- ASCII whitespace recognizer (the subset relevant to `str::trim` on the
inputs at hand: no line feeds occur inside a split-off line). -/
def isWsByte (b : Nat) : Bool := b = 9 || b = 10 || b = 12 || b = 13 || b = 32

/-- Rust `str::trim` at the byte level. -/
def trimBytes (l : List Nat) : List Nat :=
  ((l.dropWhile isWsByte).reverse.dropWhile isWsByte).reverse

/-- Rust `str::starts_with` at the byte level. -/
def startsWithBytes : List Nat → List Nat → Bool
  | [], _ => true
  | _ :: _, [] => false
  | p :: ps, b :: bs => b = p && startsWithBytes ps bs

/-! ## Base64 (the `base64` crate engines used by the repository) -/

/-- The `URL_SAFE` alphabet. -/
def b64UrlAlphabet : List Nat :=
  asciiBytes "ABCDEFGHIJKLMNOPQRSTUVWXYZabcdefghijklmnopqrstuvwxyz0123456789-_"

/-- The `STANDARD` alphabet. -/
def b64StdAlphabet : List Nat :=
  asciiBytes "ABCDEFGHIJKLMNOPQRSTUVWXYZabcdefghijklmnopqrstuvwxyz0123456789+/"

def b64UrlChar (v : Nat) : Nat := b64UrlAlphabet.getD v 0

def b64StdChar (v : Nat) : Nat := b64StdAlphabet.getD v 0

def b64UrlVal (c : Nat) : Option Nat := b64UrlAlphabet.findIdx? (fun b => b == c)

def b64StdVal (c : Nat) : Option Nat := b64StdAlphabet.findIdx? (fun b => b == c)

/-- Core base64 encoding: 3 input bytes to 4 alphabet symbols, with the
shortened 2- and 3-symbol tails for trailing 1 or 2 bytes (no padding). -/
def b64EncodeCore (ch : Nat → Nat) : List Nat → List Nat
  | [] => []
  | [a] => [ch (a / 4), ch (a % 4 * 16)]
  | [a, b] => [ch (a / 4), ch (a % 4 * 16 + b / 16), ch (b % 16 * 4)]
  | a :: b :: c :: rest =>
    ch (a / 4) :: ch (a % 4 * 16 + b / 16) :: ch (b % 16 * 4 + c / 64) ::
      ch (c % 64) :: b64EncodeCore ch rest

/-- Core base64 decoding of an unpadded symbol stream.  Fails on symbols
outside the alphabet, on length ≡ 1 (mod 4), and on non-zero trailing bits
(the `base64` crate's default `InvalidLastSymbol` check). -/
def b64DecodeCore (val : Nat → Option Nat) : List Nat → Option (List Nat)
  | [] => some []
  | [_] => none
  | [c1, c2] =>
    match val c1, val c2 with
    | some v1, some v2 => if v2 % 16 = 0 then some [v1 * 4 + v2 / 16] else none
    | _, _ => none
  | [c1, c2, c3] =>
    match val c1, val c2, val c3 with
    | some v1, some v2, some v3 =>
        if v3 % 4 = 0 then some [v1 * 4 + v2 / 16, v2 % 16 * 16 + v3 / 4] else none
    | _, _, _ => none
  | c1 :: c2 :: c3 :: c4 :: rest =>
    match val c1, val c2, val c3, val c4, b64DecodeCore val rest with
    | some v1, some v2, some v3, some v4, some bs =>
        some ((v1 * 4 + v2 / 16) :: (v2 % 16 * 16 + v3 / 4) :: (v3 % 4 * 64 + v4) :: bs)
    | _, _, _, _, _ => none

/-- `crypto::base64url_encode` (`URL_SAFE_NO_PAD.encode`). -/
def base64url_encode (l : List Nat) : List Nat := b64EncodeCore b64UrlChar l

/-- `crypto::base64url_decode` (`URL_SAFE_NO_PAD.decode`), `none` = error. -/
def base64url_decode (l : List Nat) : Option (List Nat) := b64DecodeCore b64UrlVal l

/-! ## Standard (padded) base64, used by the SPKI PEM key codec -/

/-- Padding emitted by the `STANDARD` engine for a given input length. -/
def b64PadFor (n : Nat) : List Nat :=
  if n % 3 = 1 then [61, 61] else if n % 3 = 2 then [61] else []

/-- `STANDARD.encode`. -/
def b64StdEncode (l : List Nat) : List Nat :=
  b64EncodeCore b64StdChar l ++ b64PadFor l.length

/-- Strip 0, 1 or 2 trailing `=` bytes, returning the body and the count. -/
def b64StripPad (l : List Nat) : List Nat × Nat :=
  match l.reverse with
  | [] => (l, 0)
  | [a] => if a = 61 then ([], 1) else (l, 0)
  | a :: b :: r =>
    if a = 61 then
      if b = 61 then (r.reverse, 2) else ((b :: r).reverse, 1)
    else (l, 0)

/-- `STANDARD.decode`: requires canonical padding (total length a multiple of
four, pad count matching the body length class), `none` = error. -/
def b64StdDecode (l : List Nat) : Option (List Nat) :=
  if l.length % 4 ≠ 0 then none
  else
    match b64StripPad l with
    | (body, 2) => if body.length % 4 = 2 then b64DecodeCore b64StdVal body else none
    | (body, 1) => if body.length % 4 = 3 then b64DecodeCore b64StdVal body else none
    | (body, _) => b64DecodeCore b64StdVal body

/-! ## Hex decoding (the `hex` crate, used for the issuer's dev seed) -/

def hexVal (c : Nat) : Option Nat :=
  if 48 ≤ c ∧ c ≤ 57 then some (c - 48)
  else if 97 ≤ c ∧ c ≤ 102 then some (c - 87)
  else if 65 ≤ c ∧ c ≤ 70 then some (c - 55)
  else none

def hexDecode : List Nat → Option (List Nat)
  | [] => some []
  | [_] => none
  | c1 :: c2 :: rest =>
    match hexVal c1, hexVal c2, hexDecode rest with
    | some v1, some v2, some bs => some ((v1 * 16 + v2) :: bs)
    | _, _, _ => none

/-! ## Decimal integers (serde_json's i64 number formatting and parsing) -/

def isDigitByte (b : Nat) : Bool := 48 ≤ b && b ≤ 57

/-- Fuel-driven most-significant-first decimal digit list of a `Nat`. -/
def natDecDigitsF : Nat → Nat → List Nat
  | 0, _ => []
  | fuel + 1, n =>
    if n = 0 then [] else natDecDigitsF fuel (n / 10) ++ [n % 10 + 48]

/-- Decimal byte representation of a `Nat`. -/
def natToDec (n : Nat) : List Nat := if n = 0 then [48] else natDecDigitsF n n

/-- Decimal byte representation of an `Int` (as `itoa`/serde_json emit it). -/
def intToDec (i : Int) : List Nat :=
  if i < 0 then 45 :: natToDec i.natAbs else natToDec i.toNat

/-- Consume leading decimal digit bytes, accumulating their value. -/
def parseDigitsAux (acc : Nat) : List Nat → Nat × List Nat
  | [] => (acc, [])
  | b :: bs => if isDigitByte b then parseDigitsAux (acc * 10 + (b - 48)) bs else (acc, b :: bs)

/-- Parse a JSON integer on the canonical grammar the repository's
serializers emit (optional minus sign, at least one digit).  This is a
refinement of serde_json's number parsing used only on writer-emitted
bytes, where the two agree; serde_json's full acceptance boundary
(leading-zero and i64-range rejection, floats) is modelled parametrically
by `ActJsonModel` where a claim quantifies over it. -/
def parseJsonInt (l : List Nat) : Option (Int × List Nat) :=
  match l with
  | [] => none
  | b :: bs =>
    if b = 45 then
      match bs with
      | [] => none
      | c :: cs =>
        if isDigitByte c then
          some (-((parseDigitsAux (c - 48) cs).1 : Int), (parseDigitsAux (c - 48) cs).2)
        else none
    else if isDigitByte b then
      some (((parseDigitsAux (b - 48) bs).1 : Int), (parseDigitsAux (b - 48) bs).2)
    else none

/-! ## JSON string escaping (as `serde_json` emits) and unescaping -/

def hexDigitLower (n : Nat) : Nat := if n < 10 then 48 + n else 87 + n

/-- serde_json's escape of a single byte inside a JSON string. -/
def jsonEscapeByte (b : Nat) : List Nat :=
  if b = 34 then [92, 34]
  else if b = 92 then [92, 92]
  else if b = 8 then [92, 98]
  else if b = 9 then [92, 116]
  else if b = 10 then [92, 110]
  else if b = 12 then [92, 102]
  else if b = 13 then [92, 114]
  else if b < 32 then [92, 117, 48, 48, hexDigitLower (b / 16), hexDigitLower (b % 16)]
  else [b]

def jsonEscape : List Nat → List Nat
  | [] => []
  | b :: s => jsonEscapeByte b ++ jsonEscape s

/-- UTF-8 encoding of a code point below 0x10000 (as produced from a JSON
`\uXXXX` escape). -/
def utf8Enc (c : Nat) : List Nat :=
  if c < 128 then [c]
  else if c < 2048 then [192 + c / 64, 128 + c % 64]
  else [224 + c / 4096, 128 + c / 64 % 64, 128 + c % 64]

def consParsed (b : Nat) : Option (List Nat × List Nat) → Option (List Nat × List Nat)
  | some (s, r) => some (b :: s, r)
  | none => none

def appendParsed (bs : List Nat) : Option (List Nat × List Nat) → Option (List Nat × List Nat)
  | some (s, r) => some (bs ++ s, r)
  | none => none

/-- Parse the body of a JSON string (opening quote already consumed) up to
and including the closing quote, unescaping as serde_json does; returns the
decoded bytes and the remaining input.  A refinement of serde_json's string
parsing used only on writer-emitted bytes (where no raw control bytes occur
and the two agree); serde_json's full boundary is modelled parametrically by
`ActJsonModel` where a claim quantifies over it. -/
def parseJsonStringBody : List Nat → Option (List Nat × List Nat)
  | [] => none
  | b :: rest =>
    if b = 34 then some ([], rest)
    else if b = 92 then
      match rest with
      | [] => none
      | e :: rest2 =>
        if e = 34 then consParsed 34 (parseJsonStringBody rest2)
        else if e = 92 then consParsed 92 (parseJsonStringBody rest2)
        else if e = 47 then consParsed 47 (parseJsonStringBody rest2)
        else if e = 98 then consParsed 8 (parseJsonStringBody rest2)
        else if e = 102 then consParsed 12 (parseJsonStringBody rest2)
        else if e = 110 then consParsed 10 (parseJsonStringBody rest2)
        else if e = 114 then consParsed 13 (parseJsonStringBody rest2)
        else if e = 116 then consParsed 9 (parseJsonStringBody rest2)
        else if e = 117 then
          match rest2 with
          | h1 :: h2 :: h3 :: h4 :: rest3 =>
            match hexVal h1, hexVal h2, hexVal h3, hexVal h4 with
            | some v1, some v2, some v3, some v4 =>
              if 55296 ≤ ((v1 * 16 + v2) * 16 + v3) * 16 + v4 ∧
                  ((v1 * 16 + v2) * 16 + v3) * 16 + v4 ≤ 57343 then none
              else appendParsed (utf8Enc (((v1 * 16 + v2) * 16 + v3) * 16 + v4))
                (parseJsonStringBody rest3)
            | _, _, _, _ => none
          | _ => none
        else none
    else consParsed b (parseJsonStringBody rest)
termination_by structural l => l

/-! ## RFC 3339 timestamps (the `time` crate's well-known format)

Instants are measured in nanoseconds since the Unix epoch (`OffsetDateTime`
compares by instant).  `daysFromCivil`/`civilFromDays` are the standard
proleptic-Gregorian conversions. -/

def isLeapYearN (y : Nat) : Bool := y % 4 = 0 && (y % 100 != 0 || y % 400 = 0)

def daysInMonthN (y m : Nat) : Nat :=
  if m = 1 then 31
  else if m = 2 then (if isLeapYearN y then 29 else 28)
  else if m = 3 then 31
  else if m = 4 then 30
  else if m = 5 then 31
  else if m = 6 then 30
  else if m = 7 then 31
  else if m = 8 then 31
  else if m = 9 then 30
  else if m = 10 then 31
  else if m = 11 then 30
  else 31

/-- Days since 1970-01-01 of a civil date (proleptic Gregorian). -/
def daysFromCivil (y m d : Int) : Int :=
  let y2 := if m ≤ 2 then y - 1 else y
  let era := y2.ediv 400
  let yoe := y2 - era * 400
  let mp := (m + 9).emod 12
  let doy := (153 * mp + 2).ediv 5 + d - 1
  let doe := yoe * 365 + yoe.ediv 4 - yoe.ediv 100 + doy
  era * 146097 + doe - 719468

/-- Civil date (year, month, day) of a day count since 1970-01-01. -/
def civilFromDays (z : Int) : Int × Int × Int :=
  let z2 := z + 719468
  let era := z2.ediv 146097
  let doe := z2 - era * 146097
  let yoe := (doe - doe.ediv 1460 + doe.ediv 36524 - doe.ediv 146096).ediv 365
  let y := yoe + era * 400
  let doy := doe - (365 * yoe + yoe.ediv 4 - yoe.ediv 100)
  let mp := (5 * doy + 2).ediv 153
  let d := doy - (153 * mp + 2).ediv 5 + 1
  let m := if mp < 10 then mp + 3 else mp - 9
  (if m ≤ 2 then y + 1 else y, m, d)

def dig (b : Nat) : Option Nat := if isDigitByte b then some (b - 48) else none

/-- Collect leading decimal digits as values, returning them and the rest. -/
def takeDigits : List Nat → List Nat × List Nat
  | [] => ([], [])
  | b :: bs =>
    if isDigitByte b then
      ((b - 48) :: (takeDigits bs).1, (takeDigits bs).2)
    else ([], b :: bs)

def digitsVal (ds : List Nat) : Nat := ds.foldl (fun a d => a * 10 + d) 0

/-- Parse an RFC3339 UTC offset (`Z`/`z` or `±HH:MM`), consuming all input,
returning the offset in seconds. -/
def parseZoneOffset : List Nat → Option Int
  | [c] => if c = 90 ∨ c = 122 then some 0 else none
  | [sgn, a1, a2, c, b1, b2] =>
    if (sgn = 43 ∨ sgn = 45) ∧ c = 58 ∧ isDigitByte a1 ∧ isDigitByte a2 ∧
        isDigitByte b1 ∧ isDigitByte b2 then
      let hh := (a1 - 48) * 10 + (a2 - 48)
      let mm := (b1 - 48) * 10 + (b2 - 48)
      if hh ≤ 23 ∧ mm ≤ 59 then
        some ((if sgn = 43 then (1 : Int) else -1) * ((hh : Int) * 60 + (mm : Int)) * 60)
      else none
    else none
  | _ => none

/-- Parse the optional fractional-seconds part (1–9 digits) and the offset. -/
def parseFracOffset (l : List Nat) : Option (Nat × Int) :=
  match l with
  | 46 :: rest =>
    let ds := (takeDigits rest).1
    let rest2 := (takeDigits rest).2
    if 1 ≤ ds.length ∧ ds.length ≤ 9 then
      match parseZoneOffset rest2 with
      | some off => some (digitsVal ds * 10 ^ (9 - ds.length), off)
      | none => none
    else none
  | _ =>
    match parseZoneOffset l with
    | some off => some (0, off)
    | none => none

/-- The byte of `l` at index `i` (0 when out of range; the grammar checks
below make the default unreachable on accepted inputs). -/
def byteAt (l : List Nat) (i : Nat) : Nat := l.getD i 0

/-- The fixed `YYYY-MM-DDThh:mm:ss` head of an RFC3339 timestamp is
well-formed: digits in the data positions, the right separators, `T`/`t`. -/
def rfc3339HeadOk (l : List Nat) : Prop :=
  19 ≤ l.length ∧
  isDigitByte (byteAt l 0) ∧ isDigitByte (byteAt l 1) ∧
  isDigitByte (byteAt l 2) ∧ isDigitByte (byteAt l 3) ∧
  byteAt l 4 = 45 ∧
  isDigitByte (byteAt l 5) ∧ isDigitByte (byteAt l 6) ∧
  byteAt l 7 = 45 ∧
  isDigitByte (byteAt l 8) ∧ isDigitByte (byteAt l 9) ∧
  (byteAt l 10 = 84 ∨ byteAt l 10 = 116) ∧
  isDigitByte (byteAt l 11) ∧ isDigitByte (byteAt l 12) ∧
  byteAt l 13 = 58 ∧
  isDigitByte (byteAt l 14) ∧ isDigitByte (byteAt l 15) ∧
  byteAt l 16 = 58 ∧
  isDigitByte (byteAt l 17) ∧ isDigitByte (byteAt l 18)

instance (l : List Nat) : Decidable (rfc3339HeadOk l) := by
  unfold rfc3339HeadOk; infer_instance

/-- `OffsetDateTime::parse(s, &Rfc3339)`: nanoseconds since the epoch of the
instant, or `none` on a parse error. -/
def parseRfc3339 (l : List Nat) : Option Int :=
  let dv := fun i => byteAt l i - 48
  let year := ((dv 0 * 10 + dv 1) * 10 + dv 2) * 10 + dv 3
  let month := dv 5 * 10 + dv 6
  let day := dv 8 * 10 + dv 9
  let hour := dv 11 * 10 + dv 12
  let minute := dv 14 * 10 + dv 15
  let second := dv 17 * 10 + dv 18
  if rfc3339HeadOk l ∧ 1 ≤ month ∧ month ≤ 12 ∧ 1 ≤ day ∧
      day ≤ daysInMonthN year month ∧ hour ≤ 23 ∧ minute ≤ 59 ∧ second ≤ 59 then
    match parseFracOffset (l.drop 19) with
    | some (nanos, off) =>
      some ((daysFromCivil year month day * 86400 + (hour : Int) * 3600 +
        (minute : Int) * 60 + (second : Int) - off) * 1000000000 + (nanos : Int))
    | none => none
  else none

def pad2 (n : Nat) : List Nat := [48 + n / 10 % 10, 48 + n % 10]

def pad4 (n : Nat) : List Nat :=
  [48 + n / 1000 % 10, 48 + n / 100 % 10, 48 + n / 10 % 10, 48 + n % 10]

/-- `OffsetDateTime::format(&Rfc3339)` of a whole-second UTC instant
(`none` = format error: year outside 0..=9999).  The issuer only formats
nanosecond-truncated values, so no fractional part is emitted. -/
def formatRfc3339 (sec : Int) : Option (List Nat) :=
  let days := sec.ediv 86400
  let sod := (sec.emod 86400).toNat
  let c := civilFromDays days
  if c.1 < 0 ∨ 9999 < c.1 then none
  else some (pad4 c.1.toNat ++ 45 :: pad2 c.2.1.toNat ++ 45 :: pad2 c.2.2.toNat ++
    84 :: pad2 (sod / 3600) ++ 58 :: pad2 (sod % 3600 / 60) ++ 58 :: pad2 (sod % 60) ++ [90])

/-! ## The license data model (`license_payload.rs`, generator `main.rs`) -/

/-- `LicenseType` (serde `SCREAMING_SNAKE_CASE` string enum). -/
inductive LicenseType where
  | Yearly
  | Lifetime
deriving DecidableEq

/-- `LicensePayload`: the signed claims (same shape in app and generator).
`valid_until` carries `#[serde(skip_serializing_if = "Option::is_none")]`. -/
structure LicensePayload where
  license_type : LicenseType
  valid_from : List Nat
  valid_until : Option (List Nat)
  pib_hash : List Nat
deriving DecidableEq

/-- `license_validator.rs` `IncomingLicensePayload` (deserialization shape). -/
structure IncomingLicensePayload where
  license_type : LicenseType
  valid_from : List Nat
  valid_until : Option (List Nat)
  pib_hash : List Nat
deriving DecidableEq

/-- `VerifiedLicenseInfo`: the structured verdict. -/
structure VerifiedLicenseInfo where
  license_type : Option (List Nat)
  valid_until : Option (List Nat)
  is_valid : Bool
  reason : Option (List Nat)
deriving DecidableEq

/-- `ActivationCodePayload` (same field order in app and generator). -/
structure ActivationCodePayload where
  pib_hash : List Nat
  issued_at : Int
  nonce : List Nat
  app_id : List Nat
deriving DecidableEq

/-- Serde name of a `LicenseType` value (`SCREAMING_SNAKE_CASE`). -/
def ltName : LicenseType → List Nat
  | .Yearly => asciiBytes "YEARLY"
  | .Lifetime => asciiBytes "LIFETIME"

/-- `format!("α:?β", license_type).to_ascii_uppercase()` as used in the
verifier's diagnostic verdicts: `Yearly`/`Lifetime` upper-cased. -/
def ltDebugUpper : LicenseType → List Nat
  | .Yearly => asciiBytes "YEARLY"
  | .Lifetime => asciiBytes "LIFETIME"

/- JSON object fragments of the two payloads, each ending with the opening
quote of the following string value where one follows. -/

def keyLicenseType : List Nat := asciiBytes "\x7b\"license_type\":\""

def keyValidFrom : List Nat := asciiBytes ",\"valid_from\":\""

def keyValidUntil : List Nat := asciiBytes ",\"valid_until\":\""

def keyPibHash : List Nat := asciiBytes ",\"pib_hash\":\""

def keyPibHashFirst : List Nat := asciiBytes "\x7b\"pib_hash\":\""

def keyIssuedAt : List Nat := asciiBytes ",\"issued_at\":"

def keyNonce : List Nat := asciiBytes ",\"nonce\":\""

def keyAppId : List Nat := asciiBytes ",\"app_id\":\""

/-- `serde_json::to_vec(&LicensePayload)`: compact JSON, struct field order,
`valid_until` omitted when `None` (not serialized as null). -/
def serializeLicensePayload (p : LicensePayload) : List Nat :=
  keyLicenseType ++ jsonEscape (ltName p.license_type) ++ [34] ++
  keyValidFrom ++ jsonEscape p.valid_from ++ [34] ++
  (match p.valid_until with
   | none => []
   | some u => keyValidUntil ++ jsonEscape u ++ [34]) ++
  keyPibHash ++ jsonEscape p.pib_hash ++ [34] ++ [125]

/-- `serde_json::to_vec(&ActivationCodePayload)`: compact JSON, field order
`pib_hash`, `issued_at`, `nonce`, `app_id`. -/
def serializeActivationPayload (p : ActivationCodePayload) : List Nat :=
  keyPibHashFirst ++ jsonEscape p.pib_hash ++ [34] ++
  keyIssuedAt ++ intToDec p.issued_at ++
  keyNonce ++ jsonEscape p.nonce ++ [34] ++
  keyAppId ++ jsonEscape p.app_id ++ [34] ++ [125]

/-- Strip an expected byte prefix. -/
def stripPre : List Nat → List Nat → Option (List Nat)
  | [], l => some l
  | _ :: _, [] => none
  | p :: ps, b :: bs => if b = p then stripPre ps bs else none

def decodeLtName (s : List Nat) : Option LicenseType :=
  if s = asciiBytes "YEARLY" then some .Yearly
  else if s = asciiBytes "LIFETIME" then some .Lifetime
  else none

/-- `serde_json::from_slice::<IncomingLicensePayload>` on the canonical
grammar the issuer emits (fixed field order, optional `valid_until`,
full string unescaping); `none` = parse error. -/
def parseIncomingLicensePayload (bytes : List Nat) : Option IncomingLicensePayload := do
  let r1 ← stripPre keyLicenseType bytes
  let (ltBytes, r2) ← parseJsonStringBody r1
  let lt ← decodeLtName ltBytes
  let r3 ← stripPre keyValidFrom r2
  let (vf, r4) ← parseJsonStringBody r3
  match stripPre keyValidUntil r4 with
  | some r5 => do
    let (vu, r6) ← parseJsonStringBody r5
    let r7 ← stripPre keyPibHash r6
    let (ph, r8) ← parseJsonStringBody r7
    if r8 = [125] then some ⟨lt, vf, some vu, ph⟩ else none
  | none => do
    let r7 ← stripPre keyPibHash r4
    let (ph, r8) ← parseJsonStringBody r7
    if r8 = [125] then some ⟨lt, vf, none, ph⟩ else none

/-- `serde_json::from_slice::<ActivationCodePayload>` restricted to the
canonical grammar the app-side writer emits (fixed field order, no
whitespace); `none` = parse error.  On writer output it agrees with
serde_json byte for byte (the only inputs round-trip claims and witnesses
evaluate it on); it is NOT an extensional model of serde_json's acceptance
boundary on arbitrary bytes — where that boundary itself is load-bearing,
the parse function is quantified via `ActJsonModel` instead. -/
def parseActivationPayload (bytes : List Nat) : Option ActivationCodePayload := do
  let r1 ← stripPre keyPibHashFirst bytes
  let (ph, r2) ← parseJsonStringBody r1
  let r3 ← stripPre keyIssuedAt r2
  let (ia, r4) ← parseJsonInt r3
  let r5 ← stripPre keyNonce r4
  let (nn, r6) ← parseJsonStringBody r5
  let r7 ← stripPre keyAppId r6
  let (ai, r8) ← parseJsonStringBody r7
  if r8 = [125] then some ⟨ph, ia, nn, ai⟩ else none

/-! ## The Ed25519 signature model

`ed25519_dalek` is modelled parametrically: any byte-level implementation
satisfying the library's functional guarantees.  `pubkey` maps a 32-byte
seed to the verifying-key bytes, `sign` produces the 64-byte signature,
`verifyStrict` is `VerifyingKey::verify_strict`, `keyOk` is whether
`VerifyingKey::from_bytes` succeeds. -/

structure SigModel where
  pubkey : List Nat → List Nat
  sign : List Nat → List Nat → List Nat
  verifyStrict : List Nat → List Nat → List Nat → Bool
  keyOk : List Nat → Bool
  pubkey_len : ∀ s, (pubkey s).length = 32
  pubkey_bytes : ∀ s, bytesOk (pubkey s)
  sign_len : ∀ s m, (sign s m).length = 64
  sign_bytes : ∀ s m, bytesOk (sign s m)
  keyOk_pubkey : ∀ s, keyOk (pubkey s) = true
  verify_sign : ∀ s m, verifyStrict (pubkey s) m (sign s m) = true

/-- A toy 32-byte digest used by the demonstration model below. -/
def toyPk (s : List Nat) : List Nat :=
  (s.map (fun b => b % 256) ++ List.replicate 32 0).take 32

/-- A concrete (insecure, purely demonstrational) signature model used to
instantiate witnesses; it satisfies every functional guarantee of the
parametric model. -/
def toyModel : SigModel where
  pubkey := toyPk
  sign := fun s m => toyPk s ++ toyPk m
  verifyStrict := fun pk m sig => decide (sig = pk ++ toyPk m)
  keyOk := fun _ => true
  pubkey_len := fun s => by
    simp only [toyPk, List.length_take, List.length_append, List.length_map,
      List.length_replicate]
    omega
  pubkey_bytes := fun s => by
    intro x hx
    have hx2 := List.mem_of_mem_take hx
    rcases List.mem_append.mp hx2 with h | h
    · obtain ⟨b, _, rfl⟩ := List.mem_map.mp h
      omega
    · rw [List.eq_of_mem_replicate h]
      omega
  sign_len := fun s m => by
    simp only [List.length_append, toyPk, List.length_take, List.length_map,
      List.length_replicate]
    omega
  sign_bytes := fun s m => by
    have htp : ∀ t : List Nat, bytesOk (toyPk t) := by
      intro t x hx
      have hx2 := List.mem_of_mem_take hx
      rcases List.mem_append.mp hx2 with h | h
      · obtain ⟨b, _, rfl⟩ := List.mem_map.mp h
        omega
      · rw [List.eq_of_mem_replicate h]
        omega
    intro x hx
    rcases List.mem_append.mp hx with h | h
    · exact htp s x h
    · exact htp m x h
  keyOk_pubkey := fun _ => rfl
  verify_sign := fun s m => by simp

/-! ## The SPKI PEM key codec -/

/-- The fixed 12-byte DER prefix for an Ed25519 SubjectPublicKeyInfo. -/
def spkiHeader : List Nat := [48, 42, 48, 5, 6, 3, 43, 101, 112, 3, 33, 0]

def pemBeginLine : List Nat := asciiBytes "-----BEGIN PUBLIC KEY-----"

def pemEndLine : List Nat := asciiBytes "-----END PUBLIC KEY-----"

def pemBeginTag : List Nat := asciiBytes "-----BEGIN"

def pemEndTag : List Nat := asciiBytes "-----END"

/-- Split into 64-byte chunks, each followed by a line feed (the generator's
`b64.as_bytes().chunks(64)` printing loop). -/
def chunksNlF : Nat → List Nat → List Nat
  | _, [] => []
  | 0, l => l ++ [10]
  | fuel + 1, l =>
    if l.length ≤ 64 then l ++ [10] else l.take 64 ++ 10 :: chunksNlF fuel (l.drop 64)

def chunksNl (l : List Nat) : List Nat := chunksNlF l.length l

/-- The generator's `PublicKey` command output (also the app's embedded PEM
shape): DER prefix + key bytes, standard base64, wrapped in guard lines. -/
def public_key_pem (pk : List Nat) : List Nat :=
  pemBeginLine ++ 10 :: (chunksNl (b64StdEncode (spkiHeader ++ pk)) ++ (pemEndLine ++ [10]))

/-- The validator's accumulation of non-guard, non-empty trimmed lines. -/
def pemBody (pem : List Nat) : List Nat :=
  (((splitOnByte 10 pem).map trimBytes).filter
    (fun l => !(l.isEmpty || startsWithBytes pemBeginTag l || startsWithBytes pemEndTag l))).flatten

def errInvalidPemB64 : List Nat := asciiBytes "invalid public key pem base64"

def errUnsupportedKey : List Nat := asciiBytes "unsupported public key format"

def errInvalidKeyBytes : List Nat := asciiBytes "invalid public key bytes"

def errSigLen : List Nat := asciiBytes "invalid signature length"

def errSigVerify : List Nat := asciiBytes "signature verification failed"

/-- `license_validator.rs` `parse_ed25519_public_key_from_spki_pem`. -/
def parse_ed25519_public_key_from_spki_pem (E : SigModel) (pem : List Nat) :
    Except (List Nat) (List Nat) :=
  match b64StdDecode (pemBody pem) with
  | none => .error errInvalidPemB64
  | some der =>
    if der.length ≠ 44 ∨ der.take 12 ≠ spkiHeader then .error errUnsupportedKey
    else if E.keyOk (der.drop 12) then .ok (der.drop 12) else .error errInvalidKeyBytes

/-- `license_validator.rs` `verify_ed25519_signature`. -/
def verify_ed25519_signature (E : SigModel) (pem payloadBytes signatureBytes : List Nat) :
    Except (List Nat) Unit :=
  match parse_ed25519_public_key_from_spki_pem E pem with
  | .error e => .error e
  | .ok pk =>
    if signatureBytes.length ≠ 64 then .error errSigLen
    else if E.verifyStrict pk payloadBytes signatureBytes then .ok () else .error errSigVerify

/-! ## The License Verifier (`license_validator.rs` `verify_license`) -/

def errB64Decode : List Nat := asciiBytes "base64url decode failed"

def errPayloadJson : List Nat := asciiBytes "invalid payload json"

def errDatetime : List Nat := asciiBytes "invalid datetime"

def errMissingValidUntil : List Nat := asciiBytes "missing valid_until"

def reasonInvalidFormat : List Nat := asciiBytes "invalid_format"

def reasonPibMismatch : List Nat := asciiBytes "pib_mismatch"

def reasonNotYetValid : List Nat := asciiBytes "not_yet_valid"

def reasonExpired : List Nat := asciiBytes "expired"

/-- The verdict for a license string that does not split into two parts. -/
def invalidFormatVerdict : VerifiedLicenseInfo :=
  ⟨none, none, false, some reasonInvalidFormat⟩

/-- Steps 6–7 of `verify_license`: the time checks after a verified
signature (`now < valid_from` and the per-type branch). -/
def checkValidity (payload : IncomingLicensePayload) (now : Int) :
    Except (List Nat) VerifiedLicenseInfo :=
  match parseRfc3339 payload.valid_from with
  | none => .error errDatetime
  | some validFrom =>
    if now < validFrom then
      .ok ⟨some (ltDebugUpper payload.license_type), payload.valid_until, false,
        some reasonNotYetValid⟩
    else
      match payload.license_type with
      | .Lifetime => .ok ⟨some (asciiBytes "LIFETIME"), none, true, none⟩
      | .Yearly =>
        match payload.valid_until with
        | none => .error errMissingValidUntil
        | some u =>
          match parseRfc3339 u with
          | none => .error errDatetime
          | some validUntil =>
            if validUntil < now then
              .ok ⟨some (asciiBytes "YEARLY"), some u, false, some reasonExpired⟩
            else .ok ⟨some (asciiBytes "YEARLY"), some u, true, none⟩

/-- Steps 4–7 of `verify_license`: the identifier-hash comparison, then
signature verification, then the time checks. -/
def verifyWithPayload (E : SigModel) (payloadBytes sigBytes : List Nat)
    (payload : IncomingLicensePayload) (expected pem : List Nat) (now : Int) :
    Except (List Nat) VerifiedLicenseInfo :=
  if payload.pib_hash ≠ expected then
    .ok ⟨some (ltDebugUpper payload.license_type), payload.valid_until, false,
      some reasonPibMismatch⟩
  else
    match verify_ed25519_signature E pem payloadBytes sigBytes with
    | .error e => .error e
    | .ok _ => checkValidity payload now

/-- Steps 2–7 of `verify_license`: decode both parts, JSON-parse, continue. -/
def verifyTwoParts (E : SigModel) (p0 p1 expected pem : List Nat) (now : Int) :
    Except (List Nat) VerifiedLicenseInfo :=
  match base64url_decode p0 with
  | none => .error errB64Decode
  | some payloadBytes =>
    match base64url_decode p1 with
    | none => .error errB64Decode
    | some sigBytes =>
      match parseIncomingLicensePayload payloadBytes with
      | none => .error errPayloadJson
      | some payload => verifyWithPayload E payloadBytes sigBytes payload expected pem now

/-- `license_validator.rs` `verify_license`. -/
def verify_license (E : SigModel) (license expected pem : List Nat) (now : Int) :
    Except (List Nat) VerifiedLicenseInfo :=
  match splitOnByte 46 license with
  | [p0, p1] => verifyTwoParts E p0 p1 expected pem now
  | _ => .ok invalidFormatVerdict

/-! ## The License Issuer (`license-generator/src/main.rs`) and the app-side
Activation Code writer (`activation_code.rs`) -/

def expectedAppId : List Nat := asciiBytes "com.dstankovski.pausaler-app"

def devPrivateKeySeedHex : List Nat :=
  asciiBytes "c590af4308cc0f6a1a4faccf7c05ff00b3d7d4d38a9ad52b1af10f0c6b3a3f10"

def errActB64 : List Nat := asciiBytes "invalid activation code base64url"

def errActJson : List Nat := asciiBytes "invalid activation code json"

def errActMissingPib : List Nat := asciiBytes "activation code missing pib_hash"

def errActIssuedAt : List Nat := asciiBytes "activation code has invalid issued_at"

def errActMissingNonce : List Nat := asciiBytes "activation code missing nonce"

def errAppIdMismatch (got : List Nat) : List Nat :=
  asciiBytes "activation code app_id mismatch: expected com.dstankovski.pausaler-app, got " ++ got

def errHexSeed : List Nat := asciiBytes "invalid hex seed"

def errDevSeedLen : List Nat := asciiBytes "dev seed must be 32 bytes"

def errTimeFormat : List Nat := asciiBytes "datetime format error"

/-- Generator `decode_activation_code`: trim, base64url-decode, JSON-parse,
then the three field validations, each with its own error. -/
def decode_activation_code (code : List Nat) : Except (List Nat) ActivationCodePayload :=
  match base64url_decode (trimBytes code) with
  | none => .error errActB64
  | some bytes =>
    match parseActivationPayload bytes with
    | none => .error errActJson
    | some payload =>
      if payload.pib_hash = [] then .error errActMissingPib
      else if payload.issued_at ≤ 0 then .error errActIssuedAt
      else if payload.nonce = [] then .error errActMissingNonce
      else .ok payload

/-- Generator `signing_key_from_dev_seed`. -/
def signing_key_from_dev_seed : Except (List Nat) (List Nat) :=
  match hexDecode devPrivateKeySeedHex with
  | none => .error errHexSeed
  | some seed => if seed.length ≠ 32 then .error errDevSeedLen else .ok seed

/-- The generator CLI's `--type` argument. -/
inductive LicenseKind where
  | Yearly
  | Lifetime
deriving DecidableEq

/-- Serialize the payload once, sign those exact bytes with the dev seed,
emit `b64url(payload) . b64url(signature)` (main's tail after validation). -/
def buildLicense (E : SigModel) (payload : LicensePayload) : Except (List Nat) (List Nat) :=
  match signing_key_from_dev_seed with
  | .error e => .error e
  | .ok sk =>
    .ok (base64url_encode (serializeLicensePayload payload) ++ 46 ::
      base64url_encode (E.sign sk (serializeLicensePayload payload)))

/-- The generator's `Generate` command.  `nowNs` is `OffsetDateTime::now_utc()`
in nanoseconds since the epoch; `.replace_nanosecond(0)` (which cannot fail
for nanosecond 0) is floor division to whole seconds; `Duration::days(365)`
is exactly 31536000 seconds. -/
def generate_license (E : SigModel) (activation_code : List Nat) (kind : LicenseKind)
    (nowNs : Int) : Except (List Nat) (List Nat) :=
  match decode_activation_code activation_code with
  | .error e => .error e
  | .ok activation =>
    if activation.app_id ≠ expectedAppId then .error (errAppIdMismatch activation.app_id)
    else
      match formatRfc3339 (nowNs.ediv 1000000000) with
      | none => .error errTimeFormat
      | some valid_from =>
        match kind with
        | .Yearly =>
          match formatRfc3339 (nowNs.ediv 1000000000 + 31536000) with
          | none => .error errTimeFormat
          | some validUntil =>
            buildLicense E ⟨.Yearly, valid_from, some validUntil, activation.pib_hash⟩
        | .Lifetime => buildLicense E ⟨.Lifetime, valid_from, none, activation.pib_hash⟩

/-- `activation_code.rs` `generate_activation_code`.  The 16 random bytes the
code draws from `OsRng` are passed explicitly; `serde_json::to_vec` cannot
fail on this struct, so the function always returns `Ok`. -/
def generate_activation_code (pib_hash app_id : List Nat) (issued_at : Int)
    (nonceBytes : List Nat) : Except (List Nat) (List Nat) :=
  .ok (base64url_encode (serializeActivationPayload
    ⟨pib_hash, issued_at, base64url_encode nonceBytes, app_id⟩))

instance {e a : Type} [DecidableEq e] [DecidableEq a] : DecidableEq (Except e a) := fun x y =>
  match x, y with
  | .error u, .error v =>
    if h : u = v then .isTrue (congrArg Except.error h)
    else .isFalse (fun he => h (Except.error.inj he))
  | .ok u, .ok v =>
    if h : u = v then .isTrue (congrArg Except.ok h)
    else .isFalse (fun he => h (Except.ok.inj he))
  | .error _, .ok _ => .isFalse (fun he => Except.noConfusion he)
  | .ok _, .error _ => .isFalse (fun he => Except.noConfusion he)

/-! ## Claim theorems -/

/- Concrete demonstration artifacts used by witnesses (signed with the toy
model). -/

def demoValidFrom : List Nat := asciiBytes "2025-01-01T00:00:00Z"

def demoValidUntil : List Nat := asciiBytes "2025-12-31T23:59:59Z"

def demoSeed : List Nat := List.replicate 32 7

def demoPem : List Nat := public_key_pem (toyModel.pubkey demoSeed)

def demoLifetimePayload : LicensePayload :=
  ⟨.Lifetime, demoValidFrom, none, asciiBytes "aaa"⟩

def demoLifetimeBytes : List Nat := serializeLicensePayload demoLifetimePayload

def demoLifetimeLicense : List Nat :=
  base64url_encode demoLifetimeBytes ++ 46 ::
    base64url_encode (toyModel.sign demoSeed demoLifetimeBytes)

def demoYearlyPayload : LicensePayload :=
  ⟨.Yearly, demoValidFrom, some demoValidUntil, asciiBytes "aaa"⟩

def demoYearlyBytes : List Nat := serializeLicensePayload demoYearlyPayload

def demoYearlyLicense : List Nat :=
  base64url_encode demoYearlyBytes ++ 46 ::
    base64url_encode (toyModel.sign demoSeed demoYearlyBytes)

def demoYearlyNoUntilPayload : LicensePayload :=
  ⟨.Yearly, demoValidFrom, none, asciiBytes "aaa"⟩

def demoYearlyNoUntilBytes : List Nat := serializeLicensePayload demoYearlyNoUntilPayload

def demoYearlyNoUntilLicense : List Nat :=
  base64url_encode demoYearlyNoUntilBytes ++ 46 ::
    base64url_encode (toyModel.sign demoSeed demoYearlyNoUntilBytes)

/-- Flip bit `k` of the byte at index `i` (out-of-range `i` leaves the list
unchanged). -/
def flipByteBit (s : List Nat) (i k : Nat) : List Nat :=
  s.set i (Nat.xor (s.getD i 0) (2 ^ k))

/-- The dev seed's hex decoding (32 bytes). -/
def devSeedBytes : List Nat :=
  [197, 144, 175, 67, 8, 204, 15, 106, 26, 79, 172, 207, 124, 5, 255, 0,
   179, 215, 212, 211, 138, 154, 213, 43, 26, 241, 15, 12, 107, 58, 63, 16]

/-- A concrete well-formed activation code used by issuer witnesses. -/
def demoActivationCode : List Nat :=
  base64url_encode (serializeActivationPayload
    ⟨asciiBytes "aaa", 5, base64url_encode (List.replicate 16 1), expectedAppId⟩)

/-! ## The serde_json activation-code parse boundary, parametrically

`serde_json::from_slice::<ActivationCodePayload>` is a library dependency
whose exact acceptance language (whitespace and field reordering, unknown
fields, leading-zero and i64-range number rejection, control-character and
UTF-8 string validation) is not reimplemented here.  Like `ed25519_dalek`
(`SigModel`), it is modelled parametrically: an `ActJsonModel` carries the
library's byte-exact result, and claims about the issuer's failure boundary
quantify over every such model, so they assert only the issuer's own control
flow and no fact about serde_json's language.  `parseActivationPayload` is
one instance, agreeing with the library on the canonical writer grammar,
used to evaluate witnesses on writer-emitted bytes. -/

structure ActJsonModel where
  parse : List Nat → Option ActivationCodePayload

/-- The canonical-grammar instance (used by witnesses on writer output). -/
def canonicalActJson : ActJsonModel := ⟨parseActivationPayload⟩

/-- Generator `decode_activation_code`, with the serde_json parse supplied by
an `ActJsonModel`: trim, base64url-decode, JSON-parse, then the three field
validations in order, each with its own error. -/
def decode_activation_code_with (J : ActJsonModel) (code : List Nat) :
    Except (List Nat) ActivationCodePayload :=
  match base64url_decode (trimBytes code) with
  | none => .error errActB64
  | some bytes =>
    match J.parse bytes with
    | none => .error errActJson
    | some payload =>
      if payload.pib_hash = [] then .error errActMissingPib
      else if payload.issued_at ≤ 0 then .error errActIssuedAt
      else if payload.nonce = [] then .error errActMissingNonce
      else .ok payload

/-- The generator's `Generate` command, with the serde_json parse supplied by
an `ActJsonModel` (otherwise identical to `generate_license`; instantiating
`J := canonicalActJson` yields it definitionally). -/
def generate_license_with (J : ActJsonModel) (E : SigModel) (activation_code : List Nat)
    (kind : LicenseKind) (nowNs : Int) : Except (List Nat) (List Nat) :=
  match decode_activation_code_with J activation_code with
  | .error e => .error e
  | .ok activation =>
    if activation.app_id ≠ expectedAppId then .error (errAppIdMismatch activation.app_id)
    else
      match formatRfc3339 (nowNs.ediv 1000000000) with
      | none => .error errTimeFormat
      | some valid_from =>
        match kind with
        | .Yearly =>
          match formatRfc3339 (nowNs.ediv 1000000000 + 31536000) with
          | none => .error errTimeFormat
          | some validUntil =>
            buildLicense E ⟨.Yearly, valid_from, some validUntil, activation.pib_hash⟩
        | .Lifetime => buildLicense E ⟨.Lifetime, valid_from, none, activation.pib_hash⟩

/-! ## Theorems -/

theorem splitOnByte_ne_nil (sep : Nat) (l : List Nat) : splitOnByte sep l ≠ [] := by
  cases l with
  | nil => simp [splitOnByte]
  | cons b rest =>
    simp only [splitOnByte]
    by_cases h : b = sep
    · simp [h]
    · rw [if_neg h]
      cases splitOnByte sep rest with
      | nil => simp [consHead]
      | cons cur rs => simp [consHead]

theorem splitOnByte_no_sep (sep : Nat) (l : List Nat) (h : sep ∉ l) :
    splitOnByte sep l = [l] := by
  induction l with
  | nil => rfl
  | cons b rest ih =>
    simp only [List.mem_cons, not_or] at h
    simp only [splitOnByte]
    rw [if_neg (fun hb => h.1 hb.symm), ih h.2]
    rfl

theorem splitOnByte_append_sep (sep : Nat) (x y : List Nat) (hx : sep ∉ x) :
    splitOnByte sep (x ++ sep :: y) = x :: splitOnByte sep y := by
  induction x with
  | nil =>
    simp [splitOnByte]
  | cons b restx ih =>
    simp only [List.mem_cons, not_or] at hx
    simp only [List.cons_append, splitOnByte, List.append_eq]
    rw [if_neg (fun hb => hx.1 hb.symm), ih hx.2]
    rfl

theorem dropWhile_eq_self_of_all {p : Nat → Bool} {l : List Nat}
    (h : ∀ b ∈ l, p b = false) : l.dropWhile p = l := by
  cases l with
  | nil => rfl
  | cons b rest => simp [List.dropWhile, h b (List.mem_cons_self b rest)]

theorem trimBytes_eq_self {l : List Nat} (h : ∀ b ∈ l, isWsByte b = false) :
    trimBytes l = l := by
  unfold trimBytes
  rw [dropWhile_eq_self_of_all h,
      dropWhile_eq_self_of_all (fun b hb => h b (List.mem_reverse.mp hb)),
      List.reverse_reverse]

theorem b64UrlVal_char : ∀ v : Fin 64, b64UrlVal (b64UrlChar v.1) = some v.1 := by decide

theorem b64StdVal_char : ∀ v : Fin 64, b64StdVal (b64StdChar v.1) = some v.1 := by decide

theorem b64UrlChar_mem : ∀ v : Fin 64, b64UrlChar v.1 ∈ b64UrlAlphabet := by decide

theorem b64StdChar_mem : ∀ v : Fin 64, b64StdChar v.1 ∈ b64StdAlphabet := by decide

theorem b64DecodeCore_encodeCore (val : Nat → Option Nat) (ch : Nat → Nat)
    (hvc : ∀ v, v < 64 → val (ch v) = some v) :
    ∀ l : List Nat, bytesOk l → b64DecodeCore val (b64EncodeCore ch l) = some l
  | [], _ => rfl
  | [a], h => by
    have ha : a < 256 := h a (by simp)
    simp only [b64EncodeCore, b64DecodeCore,
      hvc (a / 4) (by omega), hvc (a % 4 * 16) (by omega)]
    have h1 : a % 4 * 16 % 16 = 0 := by omega
    rw [if_pos h1]
    simp only [Option.some.injEq, List.cons.injEq, and_true]
    omega
  | [a, b], h => by
    have ha : a < 256 := h a (by simp)
    have hb : b < 256 := h b (by simp)
    simp only [b64EncodeCore, b64DecodeCore,
      hvc (a / 4) (by omega), hvc (a % 4 * 16 + b / 16) (by omega),
      hvc (b % 16 * 4) (by omega)]
    have h1 : b % 16 * 4 % 4 = 0 := by omega
    rw [if_pos h1]
    simp only [Option.some.injEq, List.cons.injEq, and_true]
    omega
  | a :: b :: c :: rest, h => by
    have ha : a < 256 := h a (by simp)
    have hb : b < 256 := h b (by simp)
    have hc : c < 256 := h c (by simp)
    have hrest : bytesOk rest := fun x hx => h x (by simp [hx])
    have ih := b64DecodeCore_encodeCore val ch hvc rest hrest
    simp only [b64EncodeCore]
    rw [b64DecodeCore, hvc (a / 4) (by omega), hvc (a % 4 * 16 + b / 16) (by omega),
      hvc (b % 16 * 4 + c / 64) (by omega), hvc (c % 64) (by omega), ih]
    simp only [Option.some.injEq, List.cons.injEq, and_true]
    omega

/-- Round trip of the repository's URL-safe unpadded base64. -/
theorem base64url_decode_encode (l : List Nat) (h : bytesOk l) :
    base64url_decode (base64url_encode l) = some l :=
  b64DecodeCore_encodeCore b64UrlVal b64UrlChar
    (fun v hv => b64UrlVal_char ⟨v, hv⟩) l h

theorem b64EncodeCore_mem_alphabet (alph : List Nat) (ch : Nat → Nat)
    (hch : ∀ v, v < 64 → ch v ∈ alph) :
    ∀ l : List Nat, bytesOk l → ∀ c ∈ b64EncodeCore ch l, c ∈ alph
  | [], _ => by simp [b64EncodeCore]
  | [a], h => by
    have ha : a < 256 := h a (by simp)
    simp only [b64EncodeCore, List.mem_cons, List.not_mem_nil, or_false]
    rintro c (rfl | rfl)
    · exact hch _ (by omega)
    · exact hch _ (by omega)
  | [a, b], h => by
    have ha : a < 256 := h a (by simp)
    have hb : b < 256 := h b (by simp)
    simp only [b64EncodeCore, List.mem_cons, List.not_mem_nil, or_false]
    rintro c (rfl | rfl | rfl)
    · exact hch _ (by omega)
    · exact hch _ (by omega)
    · exact hch _ (by omega)
  | a :: b :: c :: rest, h => by
    have ha : a < 256 := h a (by simp)
    have hb : b < 256 := h b (by simp)
    have hc : c < 256 := h c (by simp)
    have hrest : bytesOk rest := fun x hx => h x (by simp [hx])
    have ih := b64EncodeCore_mem_alphabet alph ch hch rest hrest
    simp only [b64EncodeCore, List.mem_cons]
    rintro x (rfl | rfl | rfl | rfl | hx)
    · exact hch _ (by omega)
    · exact hch _ (by omega)
    · exact hch _ (by omega)
    · exact hch _ (by omega)
    · exact ih x hx

theorem b64UrlAlphabet_props :
    ∀ c ∈ b64UrlAlphabet,
      32 ≤ c ∧ c < 128 ∧ c ≠ 46 ∧ c ≠ 34 ∧ c ≠ 92 ∧ c ≠ 61 ∧ isWsByte c = false := by
  decide

theorem b64StdAlphabet_props :
    ∀ c ∈ b64StdAlphabet,
      32 ≤ c ∧ c < 128 ∧ c ≠ 45 ∧ c ≠ 61 ∧ isWsByte c = false := by
  decide

/-- Characters of a URL-safe base64 encoding of valid bytes never include the
license separator `.` (byte 46). -/
theorem base64url_encode_no_dot (l : List Nat) (h : bytesOk l) :
    46 ∉ base64url_encode l := by
  intro hmem
  have := b64EncodeCore_mem_alphabet b64UrlAlphabet b64UrlChar
    (fun v hv => b64UrlChar_mem ⟨v, hv⟩) l h 46 hmem
  exact (b64UrlAlphabet_props 46 this).2.2.1 rfl

theorem b64EncodeCore_length (ch : Nat → Nat) :
    ∀ l : List Nat, (b64EncodeCore ch l).length = (4 * l.length + 2) / 3
  | [] => by simp [b64EncodeCore]
  | [a] => by simp [b64EncodeCore]
  | [a, b] => by simp [b64EncodeCore]
  | a :: b :: c :: rest => by
    have ih := b64EncodeCore_length ch rest
    simp only [b64EncodeCore, List.length_cons, ih]
    omega

/-- Round trip of the standard padded base64 for inputs of length ≡ 2 mod 3
(the only length the repository encodes: 44-byte SPKI DER blobs). -/
theorem b64StdDecode_encode (l : List Nat) (h : bytesOk l) (hlen : l.length % 3 = 2) :
    b64StdDecode (b64StdEncode l) = some l := by
  have henclen := b64EncodeCore_length b64StdChar l
  have hmem := b64EncodeCore_mem_alphabet b64StdAlphabet b64StdChar
    (fun v hv => b64StdChar_mem ⟨v, hv⟩) l h
  have hpad : b64PadFor l.length = [61] := by
    unfold b64PadFor
    rw [if_neg (by omega), if_pos hlen]
  unfold b64StdEncode
  rw [hpad]
  have hlen4 : (b64EncodeCore b64StdChar l ++ [61]).length % 4 = 0 := by
    simp only [List.length_append, List.length_cons, List.length_nil, henclen]
    omega
  unfold b64StdDecode
  rw [if_neg (by omega)]
  have hne : b64EncodeCore b64StdChar l ≠ [] := by
    intro hnil
    rw [hnil] at henclen
    simp at henclen
    omega
  have hrev : (b64EncodeCore b64StdChar l ++ [61]).reverse =
      61 :: (b64EncodeCore b64StdChar l).reverse := by
    simp
  cases hrc : (b64EncodeCore b64StdChar l).reverse with
  | nil => exact absurd (by simpa using hrc) hne
  | cons hd tl =>
    have hhd : hd ∈ b64StdAlphabet := by
      have : hd ∈ (b64EncodeCore b64StdChar l).reverse := by rw [hrc]; simp
      exact hmem hd (List.mem_reverse.mp this)
    have hhd61 : hd ≠ 61 := (b64StdAlphabet_props hd hhd).2.2.2.1
    have hstrip : b64StripPad (b64EncodeCore b64StdChar l ++ [61]) =
        (b64EncodeCore b64StdChar l, 1) := by
      unfold b64StripPad
      rw [hrev, hrc]
      dsimp only
      rw [if_neg hhd61, ← hrc, List.reverse_reverse, if_pos rfl]
    rw [hstrip]
    dsimp only
    have hm4 : (b64EncodeCore b64StdChar l).length % 4 = 3 := by omega
    rw [if_pos hm4]
    exact b64DecodeCore_encodeCore b64StdVal b64StdChar
      (fun v hv => b64StdVal_char ⟨v, hv⟩) l h

theorem isDigitByte_true {b : Nat} : isDigitByte b = true ↔ 48 ≤ b ∧ b ≤ 57 := by
  simp [isDigitByte]

theorem parseDigitsAux_stop (acc : Nat) (rest : List Nat)
    (h : isDigitByte (rest.headD 0) = false) : parseDigitsAux acc rest = (acc, rest) := by
  cases rest with
  | nil => rfl
  | cons b bs =>
    simp only [List.headD_cons] at h
    simp [parseDigitsAux, h]

theorem parseDigitsAux_digits :
    ∀ fuel n acc rest, n ≤ fuel →
      parseDigitsAux acc (natDecDigitsF fuel n ++ rest) =
        parseDigitsAux (acc * 10 ^ (natDecDigitsF fuel n).length + n) rest := by
  intro fuel
  induction fuel with
  | zero =>
    intro n acc rest hn
    interval_cases n
    simp [natDecDigitsF]
  | succ f ih =>
    intro n acc rest hn
    by_cases hn0 : n = 0
    · subst hn0
      simp [natDecDigitsF]
    · have hq : n / 10 ≤ f := by omega
      simp only [natDecDigitsF, if_neg hn0, List.append_assoc, List.singleton_append]
      rw [ih _ acc _ hq]
      have hdig : isDigitByte (n % 10 + 48) = true := isDigitByte_true.mpr (by omega)
      conv_lhs => rw [parseDigitsAux]
      rw [if_pos hdig]
      congr 1
      simp only [List.length_append, List.length_cons, List.length_nil, pow_succ]
      have h1 : n % 10 + 48 - 48 = n % 10 := by omega
      rw [h1, ← mul_assoc]
      generalize acc * 10 ^ (natDecDigitsF f (n / 10)).length = Q
      omega

theorem natDecDigitsF_all_digits :
    ∀ fuel n, ∀ b ∈ natDecDigitsF fuel n, isDigitByte b = true := by
  intro fuel
  induction fuel with
  | zero =>
    intro n b hb
    simp [natDecDigitsF] at hb
  | succ f ih =>
    intro n b hb
    by_cases hn0 : n = 0
    · subst hn0
      simp [natDecDigitsF] at hb
    · simp only [natDecDigitsF, if_neg hn0, List.mem_append, List.mem_singleton] at hb
      rcases hb with hb | hb
      · exact ih _ b hb
      · subst hb
        exact isDigitByte_true.mpr (by omega)

theorem natDecDigitsF_ne_nil (fuel n : Nat) (h1 : 0 < n) (h2 : n ≤ fuel) :
    natDecDigitsF fuel n ≠ [] := by
  cases fuel with
  | zero => omega
  | succ f =>
    simp only [natDecDigitsF, if_neg (by omega : ¬n = 0)]
    simp

/-- Parsing the decimal form of a positive `Nat` followed by a non-digit
recovers the value. -/
theorem parseJsonInt_natToDec (n : Nat) (hn : 0 < n) (rest : List Nat)
    (hrest : isDigitByte (rest.headD 0) = false) :
    parseJsonInt (natToDec n ++ rest) = some ((n : Int), rest) := by
  have hkey := parseDigitsAux_digits n n 0 rest (le_refl n)
  rw [parseDigitsAux_stop _ _ hrest] at hkey
  simp only [zero_mul, zero_add] at hkey
  unfold natToDec
  rw [if_neg (by omega)]
  cases hds : natDecDigitsF n n with
  | nil => exact absurd hds (natDecDigitsF_ne_nil n n hn (le_refl n))
  | cons d ds =>
    have hd : isDigitByte d = true := by
      apply natDecDigitsF_all_digits n n
      rw [hds]
      simp
    have hd45 : d ≠ 45 := by
      have := isDigitByte_true.mp hd
      omega
    simp only [List.cons_append, parseJsonInt]
    rw [if_neg hd45, if_pos hd]
    rw [hds] at hkey
    simp only [List.cons_append] at hkey
    conv_lhs at hkey => rw [parseDigitsAux]
    rw [if_pos hd] at hkey
    simp only [zero_mul, zero_add] at hkey
    rw [hkey]

theorem hexVal_hexDigitLower : ∀ v : Fin 16, hexVal (hexDigitLower v.1) = some v.1 := by
  decide

/-- Unescaping inverts serde_json's escaping, byte by byte. -/
theorem parseJsonStringBody_escape :
    ∀ s rest : List Nat, parseJsonStringBody (jsonEscape s ++ 34 :: rest) = some (s, rest) := by
  intro s
  induction s with
  | nil =>
    intro rest
    rw [jsonEscape, List.nil_append, parseJsonStringBody.eq_def]
    norm_num
  | cons b s ih =>
    intro rest
    simp only [jsonEscape, List.append_assoc]
    unfold jsonEscapeByte
    by_cases h34 : b = 34
    · subst h34
      rw [if_pos rfl]
      simp only [List.cons_append, List.nil_append]
      rw [parseJsonStringBody.eq_def]
      norm_num [ih rest, consParsed]
    · rw [if_neg h34]
      by_cases h92 : b = 92
      · subst h92
        rw [if_pos rfl]
        simp only [List.cons_append, List.nil_append]
        rw [parseJsonStringBody.eq_def]
        norm_num [ih rest, consParsed]
      · rw [if_neg h92]
        by_cases h8 : b = 8
        · subst h8
          rw [if_pos rfl]
          simp only [List.cons_append, List.nil_append]
          rw [parseJsonStringBody.eq_def]
          norm_num [ih rest, consParsed]
        · rw [if_neg h8]
          by_cases h9 : b = 9
          · subst h9
            rw [if_pos rfl]
            simp only [List.cons_append, List.nil_append]
            rw [parseJsonStringBody.eq_def]
            norm_num [ih rest, consParsed]
          · rw [if_neg h9]
            by_cases h10 : b = 10
            · subst h10
              rw [if_pos rfl]
              simp only [List.cons_append, List.nil_append]
              rw [parseJsonStringBody.eq_def]
              norm_num [ih rest, consParsed]
            · rw [if_neg h10]
              by_cases h12 : b = 12
              · subst h12
                rw [if_pos rfl]
                simp only [List.cons_append, List.nil_append]
                rw [parseJsonStringBody.eq_def]
                norm_num [ih rest, consParsed]
              · rw [if_neg h12]
                by_cases h13 : b = 13
                · subst h13
                  rw [if_pos rfl]
                  simp only [List.cons_append, List.nil_append]
                  rw [parseJsonStringBody.eq_def]
                  norm_num [ih rest, consParsed]
                · rw [if_neg h13]
                  by_cases hc : b < 32
                  · rw [if_pos hc]
                    have hv1 : hexVal (hexDigitLower (b / 16)) = some (b / 16) :=
                      hexVal_hexDigitLower ⟨b / 16, by omega⟩
                    have hv2 : hexVal (hexDigitLower (b % 16)) = some (b % 16) :=
                      hexVal_hexDigitLower ⟨b % 16, by omega⟩
                    have hv48 : hexVal 48 = some 0 := by norm_num [hexVal]
                    simp only [List.cons_append, List.nil_append]
                    rw [parseJsonStringBody.eq_def]
                    norm_num [hv1, hv2, hv48]
                    constructor
                    · intro hge
                      omega
                    · have hbb : b / 16 * 16 + b % 16 = b := by omega
                      have hub : utf8Enc b = [b] := by
                        unfold utf8Enc
                        rw [if_pos (by omega)]
                      rw [hbb, hub, ih rest]
                      simp [appendParsed]
                  · rw [if_neg hc]
                    simp only [List.cons_append, List.nil_append]
                    rw [parseJsonStringBody.eq_def]
                    dsimp only
                    rw [if_neg h34, if_neg h92, ih rest]
                    simp [consParsed]

theorem stripPre_append : ∀ p rest : List Nat, stripPre p (p ++ rest) = some rest
  | [], rest => rfl
  | p :: ps, rest => by
    simp only [List.cons_append, stripPre, if_pos rfl]
    exact stripPre_append ps rest

theorem stripPre_keyValidUntil_keyPibHash (R : List Nat) :
    stripPre keyValidUntil (keyPibHash ++ R) = none := by
  have h1 : keyValidUntil = 44 :: 34 :: 118 :: keyValidUntil.drop 3 := by decide
  have h2 : keyPibHash = 44 :: 34 :: 112 :: keyPibHash.drop 3 := by decide
  rw [h1, h2]
  simp [stripPre]

theorem decodeLtName_ltName : ∀ lt : LicenseType, decodeLtName (ltName lt) = some lt := by
  intro lt
  cases lt <;> decide

/-- Deserializing a serialized `LicensePayload` recovers its fields
(the serializer emits the canonical grammar the parser accepts). -/
theorem parseIncomingLicensePayload_serialize (p : LicensePayload) :
    parseIncomingLicensePayload (serializeLicensePayload p) =
      some ⟨p.license_type, p.valid_from, p.valid_until, p.pib_hash⟩ := by
  obtain ⟨lt, vf, vu, ph⟩ := p
  cases vu with
  | none =>
    simp [serializeLicensePayload, parseIncomingLicensePayload, List.append_assoc,
      List.singleton_append, stripPre_append, parseJsonStringBody_escape,
      decodeLtName_ltName, Option.bind, stripPre_keyValidUntil_keyPibHash]
  | some u =>
    simp [serializeLicensePayload, parseIncomingLicensePayload, List.append_assoc,
      List.singleton_append, stripPre_append, parseJsonStringBody_escape,
      decodeLtName_ltName, Option.bind]

/-- Deserializing a serialized `ActivationCodePayload` recovers its fields,
for any positive `issued_at` (the only values the app emits). -/
theorem parseActivationPayload_serialize (p : ActivationCodePayload)
    (hpos : 0 < p.issued_at) :
    parseActivationPayload (serializeActivationPayload p) = some p := by
  obtain ⟨ph, ia, nn, ai⟩ := p
  simp only at hpos
  have hia : intToDec ia = natToDec ia.toNat := by
    unfold intToDec
    rw [if_neg (by omega)]
  have hparse : ∀ R : List Nat,
      parseJsonInt (intToDec ia ++ (keyNonce ++ R)) = some (ia, keyNonce ++ R) := by
    intro R
    have hhead : isDigitByte ((keyNonce ++ R).headD 0) = false := by
      have hk : keyNonce = 44 :: keyNonce.tail := by decide
      rw [hk, List.cons_append, List.headD_cons]
      decide
    rw [hia]
    rw [parseJsonInt_natToDec ia.toNat (by omega) (keyNonce ++ R) hhead]
    have htn : ((ia.toNat : Int)) = ia := by omega
    rw [htn]
  simp [serializeActivationPayload, parseActivationPayload, List.append_assoc,
    List.singleton_append, stripPre_append, parseJsonStringBody_escape,
    Option.bind, hparse]

/-! ## Byte-validity of the serializers -/

theorem bytesOk_append {a b : List Nat} (ha : bytesOk a) (hb : bytesOk b) :
    bytesOk (a ++ b) := by
  intro x hx
  rcases List.mem_append.mp hx with h | h
  · exact ha x h
  · exact hb x h

theorem jsonEscapeByte_lt (b x : Nat) (h : b < 256) (hx : x ∈ jsonEscapeByte b) :
    x < 256 := by
  unfold jsonEscapeByte hexDigitLower at hx
  split_ifs at hx <;> simp at hx <;> omega

theorem bytesOk_jsonEscape {s : List Nat} (h : bytesOk s) : bytesOk (jsonEscape s) := by
  induction s with
  | nil => intro x hx; simp [jsonEscape] at hx
  | cons b s ih =>
    intro x hx
    simp only [jsonEscape, List.mem_append] at hx
    rcases hx with hx | hx
    · exact jsonEscapeByte_lt b x (h b (by simp)) hx
    · exact ih (fun y hy => h y (by simp [hy])) x hx

theorem bytesOk_natToDec (n : Nat) : bytesOk (natToDec n) := by
  unfold natToDec
  split_ifs
  · decide
  · intro x hx
    have := isDigitByte_true.mp (natDecDigitsF_all_digits n n x hx)
    omega

theorem bytesOk_intToDec (i : Int) : bytesOk (intToDec i) := by
  unfold intToDec
  split_ifs
  · intro x hx
    rcases List.mem_cons.mp hx with rfl | hx
    · omega
    · exact bytesOk_natToDec _ x hx
  · exact bytesOk_natToDec _

theorem bytesOk_ltName (lt : LicenseType) : bytesOk (ltName lt) := by
  cases lt <;> decide

theorem serializeLicensePayload_bytesOk (p : LicensePayload)
    (h1 : bytesOk p.valid_from) (h2 : bytesOk p.pib_hash)
    (h3 : ∀ u, p.valid_until = some u → bytesOk u) :
    bytesOk (serializeLicensePayload p) := by
  obtain ⟨lt, vf, vu, ph⟩ := p
  dsimp only at h1 h2 h3
  unfold serializeLicensePayload
  dsimp only
  cases vu with
  | none =>
    repeat' apply bytesOk_append
    all_goals first
      | decide
      | exact bytesOk_jsonEscape h1
      | exact bytesOk_jsonEscape h2
      | exact bytesOk_jsonEscape (bytesOk_ltName lt)
  | some u =>
    repeat' apply bytesOk_append
    all_goals first
      | decide
      | exact bytesOk_jsonEscape h1
      | exact bytesOk_jsonEscape h2
      | exact bytesOk_jsonEscape (h3 u rfl)
      | exact bytesOk_jsonEscape (bytesOk_ltName lt)

theorem serializeActivationPayload_bytesOk (p : ActivationCodePayload)
    (h1 : bytesOk p.pib_hash) (h2 : bytesOk p.nonce) (h3 : bytesOk p.app_id) :
    bytesOk (serializeActivationPayload p) := by
  obtain ⟨ph, ia, nn, ai⟩ := p
  dsimp only at h1 h2 h3
  unfold serializeActivationPayload
  dsimp only
  repeat' apply bytesOk_append
  all_goals first
    | decide
    | exact bytesOk_jsonEscape h1
    | exact bytesOk_jsonEscape h2
    | exact bytesOk_jsonEscape h3
    | exact bytesOk_intToDec ia

theorem chunksNl_small (l : List Nat) (h1 : l ≠ []) (h2 : l.length ≤ 64) :
    chunksNl l = l ++ [10] := by
  unfold chunksNl
  rw [chunksNlF.eq_def]
  split
  · simp_all
  · rfl
  · rw [if_pos h2]

theorem startsWithBytes_cons_ne (p : Nat) (ps : List Nat) (c : Nat) (cs : List Nat)
    (h : c ≠ p) : startsWithBytes (p :: ps) (c :: cs) = false := by
  simp [startsWithBytes, h]

theorem b64StdEncode_mem (l : List Nat) (h : bytesOk l) :
    ∀ c ∈ b64StdEncode l, c ∈ b64StdAlphabet ∨ c = 61 := by
  intro c hc
  unfold b64StdEncode at hc
  rcases List.mem_append.mp hc with hc | hc
  · exact Or.inl (b64EncodeCore_mem_alphabet b64StdAlphabet b64StdChar
      (fun v hv => b64StdChar_mem ⟨v, hv⟩) l h c hc)
  · right
    unfold b64PadFor at hc
    split_ifs at hc <;> simp_all

/-- The validator's PEM line stripping recovers exactly the base64 body the
generator printed. -/
theorem pemBody_public_key_pem (pk : List Nat) (hlen : pk.length = 32)
    (hb : bytesOk pk) :
    pemBody (public_key_pem pk) = b64StdEncode (spkiHeader ++ pk) := by
  have hdl : (spkiHeader ++ pk).length = 44 := by
    have h12 : spkiHeader.length = 12 := by decide
    rw [List.length_append, h12, hlen]
  have hdb : bytesOk (spkiHeader ++ pk) := bytesOk_append (by decide) hb
  have hmemE := b64StdEncode_mem (spkiHeader ++ pk) hdb
  have hElen : (b64StdEncode (spkiHeader ++ pk)).length = 60 := by
    unfold b64StdEncode b64PadFor
    rw [List.length_append, b64EncodeCore_length, hdl]
    decide
  have hEne : b64StdEncode (spkiHeader ++ pk) ≠ [] := by
    intro hnil
    rw [hnil] at hElen
    simp at hElen
  have hE10 : (10 : Nat) ∉ b64StdEncode (spkiHeader ++ pk) := by
    intro hmem
    rcases hmemE 10 hmem with h | h
    · exact absurd ((b64StdAlphabet_props 10 h).2.2.2.2) (by decide)
    · omega
  have hEws : ∀ c ∈ b64StdEncode (spkiHeader ++ pk), isWsByte c = false := by
    intro c hc
    rcases hmemE c hc with h | h
    · exact (b64StdAlphabet_props c h).2.2.2.2
    · subst h
      decide
  have hchunks : chunksNl (b64StdEncode (spkiHeader ++ pk)) =
      b64StdEncode (spkiHeader ++ pk) ++ [10] :=
    chunksNl_small _ hEne (by omega)
  have hsplit : splitOnByte 10 (public_key_pem pk) =
      [pemBeginLine, b64StdEncode (spkiHeader ++ pk), pemEndLine, []] := by
    unfold public_key_pem
    rw [hchunks]
    have hshape : pemBeginLine ++ 10 :: ((b64StdEncode (spkiHeader ++ pk) ++ [10]) ++
        (pemEndLine ++ [10])) = pemBeginLine ++ 10 ::
        (b64StdEncode (spkiHeader ++ pk) ++ 10 :: (pemEndLine ++ 10 :: [])) := by
      simp
    rw [hshape, splitOnByte_append_sep 10 _ _ (by decide),
      splitOnByte_append_sep 10 _ _ hE10,
      splitOnByte_append_sep 10 _ _ (by decide)]
    rfl
  unfold pemBody
  rw [hsplit]
  have htrimE : trimBytes (b64StdEncode (spkiHeader ++ pk)) =
      b64StdEncode (spkiHeader ++ pk) := trimBytes_eq_self hEws
  simp only [List.map_cons, List.map_nil, htrimE]
  rw [show trimBytes pemBeginLine = pemBeginLine from by decide,
    show trimBytes pemEndLine = pemEndLine from by decide,
    show trimBytes ([] : List Nat) = [] from by decide]
  have hpredB : (!(pemBeginLine.isEmpty || startsWithBytes pemBeginTag pemBeginLine ||
      startsWithBytes pemEndTag pemBeginLine)) = false := by decide
  have hpredEnd : (!(pemEndLine.isEmpty || startsWithBytes pemBeginTag pemEndLine ||
      startsWithBytes pemEndTag pemEndLine)) = false := by decide
  have hpredNil : (!(List.isEmpty ([] : List Nat) ||
      startsWithBytes pemBeginTag [] || startsWithBytes pemEndTag [])) = false := by decide
  have hpredE : (!((b64StdEncode (spkiHeader ++ pk)).isEmpty ||
      startsWithBytes pemBeginTag (b64StdEncode (spkiHeader ++ pk)) ||
      startsWithBytes pemEndTag (b64StdEncode (spkiHeader ++ pk)))) = true := by
    cases hc : b64StdEncode (spkiHeader ++ pk) with
    | nil => exact absurd hc hEne
    | cons c0 ct =>
      have hc0 : c0 ∈ b64StdAlphabet ∨ c0 = 61 := by
        apply hmemE
        rw [hc]
        simp
      have hc045 : c0 ≠ 45 := by
        rcases hc0 with h | h
        · exact (b64StdAlphabet_props c0 h).2.2.1
        · omega
      rw [show pemBeginTag = 45 :: pemBeginTag.tail from by decide,
        show pemEndTag = 45 :: pemEndTag.tail from by decide,
        startsWithBytes_cons_ne _ _ _ _ hc045,
        startsWithBytes_cons_ne _ _ _ _ hc045]
      simp [List.isEmpty]
  simp only [List.filter_cons, List.filter_nil, hpredB, hpredEnd, hpredNil, hpredE]
  simp

/-- Decoding the generator's PEM output recovers the key bytes. -/
theorem parse_spki_public_key_pem (E : SigModel) (pk : List Nat)
    (hlen : pk.length = 32) (hb : bytesOk pk) (hok : E.keyOk pk = true) :
    parse_ed25519_public_key_from_spki_pem E (public_key_pem pk) = .ok pk := by
  have hdb : bytesOk (spkiHeader ++ pk) := bytesOk_append (by decide) hb
  have hdl : (spkiHeader ++ pk).length = 44 := by
    have h12 : spkiHeader.length = 12 := by decide
    rw [List.length_append, h12, hlen]
  have h12 : spkiHeader.length = 12 := by decide
  have htake : (spkiHeader ++ pk).take 12 = spkiHeader := by
    rw [← h12, List.take_left]
  have hdrop : (spkiHeader ++ pk).drop 12 = pk := by
    rw [← h12, List.drop_left]
  unfold parse_ed25519_public_key_from_spki_pem
  rw [pemBody_public_key_pem pk hlen hb,
    b64StdDecode_encode _ hdb (by rw [hdl])]
  dsimp only
  rw [if_neg (by simp [hdl, htake]), hdrop, if_pos hok]

/-- On the matching key pair, strict verification of a signature produced by
`sign` succeeds. -/
theorem verify_ed25519_signature_sign (E : SigModel) (seed m : List Nat) :
    verify_ed25519_signature E (public_key_pem (E.pubkey seed)) m (E.sign seed m) =
      .ok () := by
  unfold verify_ed25519_signature
  rw [parse_spki_public_key_pem E (E.pubkey seed) (E.pubkey_len seed)
    (E.pubkey_bytes seed) (E.keyOk_pubkey seed)]
  dsimp only
  rw [if_neg (by rw [E.sign_len]; omega), if_pos (E.verify_sign seed m)]

theorem verify_license_two (E : SigModel) (license expected pem : List Nat)
    (now : Int) (p0 p1 : List Nat) (h : splitOnByte 46 license = [p0, p1]) :
    verify_license E license expected pem now = verifyTwoParts E p0 p1 expected pem now := by
  unfold verify_license
  rw [h]

theorem verify_license_not_two (E : SigModel) (license expected pem : List Nat)
    (now : Int) (h : (splitOnByte 46 license).length ≠ 2) :
    verify_license E license expected pem now = .ok invalidFormatVerdict := by
  unfold verify_license
  cases hs : splitOnByte 46 license with
  | nil => rfl
  | cons a t =>
    cases t with
    | nil => rfl
    | cons b t2 =>
      cases t2 with
      | nil =>
        rw [hs] at h
        simp at h
      | cons c t3 => rfl

/-- Every `Ok` verdict produced after a successful two-part split carries a
populated `license_type`; only the format check produces a `none` one. -/
theorem verifyTwoParts_ok_license_type (E : SigModel) (p0 p1 expected pem : List Nat)
    (now : Int) (v : VerifiedLicenseInfo)
    (h : verifyTwoParts E p0 p1 expected pem now = .ok v) : v.license_type ≠ none := by
  unfold verifyTwoParts verifyWithPayload checkValidity at h
  repeat' split at h
  all_goals try simp_all
  all_goals subst h
  all_goals simp

/-- C4: `verify_license` returns the non-fatal verdict
`is_valid = false, reason = invalid_format` (with `license_type` and
`valid_until` both `None`) exactly when splitting the input on `.` does not
yield two parts; and when it does split into exactly two parts, a base64url
decode failure of either part makes `verify_license` return a fatal `Err`,
distinct from any verdict. -/
theorem c4_format_and_decode_errors (E : SigModel) (s expected pem : List Nat) (now : Int) :
    (verify_license E s expected pem now =
        .ok ⟨none, none, false, some reasonInvalidFormat⟩ ↔
      (splitOnByte 46 s).length ≠ 2) ∧
    (∀ p0 p1, splitOnByte 46 s = [p0, p1] →
      base64url_decode p0 = none ∨ base64url_decode p1 = none →
      ∃ e, verify_license E s expected pem now = .error e) := by
  constructor
  · constructor
    · intro h
      intro hlen
      obtain ⟨p0, p1, hsplit⟩ := List.length_eq_two.mp hlen
      rw [verify_license_two E s expected pem now p0 p1 hsplit] at h
      exact verifyTwoParts_ok_license_type E p0 p1 expected pem now _ h rfl
    · intro hlen
      exact verify_license_not_two E s expected pem now hlen
  · intro p0 p1 hsplit hdec
    rw [verify_license_two E s expected pem now p0 p1 hsplit]
    unfold verifyTwoParts
    rcases hdec with hd | hd
    · rw [hd]
      exact ⟨errB64Decode, rfl⟩
    · cases hd0 : base64url_decode p0 with
      | none => exact ⟨errB64Decode, rfl⟩
      | some pb =>
        rw [hd]
        exact ⟨errB64Decode, rfl⟩

/-- C4 witness: a two-part string whose first segment is not base64url. -/
theorem c4_witness : ∃ e, verify_license toyModel (asciiBytes "$.A") [] [] 0 = .error e :=
  (c4_format_and_decode_errors toyModel (asciiBytes "$.A") [] [] 0).2
    (asciiBytes "$") (asciiBytes "A") (by decide) (Or.inl (by decide))

/-- C2: on a well-formed two-part license whose payload decodes and parses,
an identifier-hash mismatch yields the non-fatal `pib_mismatch` verdict with
`license_type`/`valid_until` populated from the still-unverified payload.
The signature model `E`, the PEM and the signature segment's content are
universally quantified and absent from the result: signature verification is
never reached on this path. -/
theorem c2_pib_mismatch (E : SigModel) (license expected pem : List Nat) (now : Int)
    (p0 p1 payloadBytes sigBytes : List Nat) (payload : IncomingLicensePayload)
    (hsplit : splitOnByte 46 license = [p0, p1])
    (h0 : base64url_decode p0 = some payloadBytes)
    (h1 : base64url_decode p1 = some sigBytes)
    (hp : parseIncomingLicensePayload payloadBytes = some payload)
    (hne : payload.pib_hash ≠ expected) :
    verify_license E license expected pem now =
      .ok ⟨some (ltDebugUpper payload.license_type), payload.valid_until, false,
        some reasonPibMismatch⟩ := by
  rw [verify_license_two E license expected pem now p0 p1 hsplit]
  unfold verifyTwoParts
  rw [h0, h1]
  dsimp only
  rw [hp]
  dsimp only
  unfold verifyWithPayload
  rw [if_pos hne]

/-- C2 witness: a toy-signed Lifetime license for hash `aaa` checked against
expected hash `bbb`, with an empty PEM (signature verification not reached). -/
theorem c2_witness :
    verify_license toyModel demoLifetimeLicense (asciiBytes "bbb") [] 0 =
      .ok ⟨some (asciiBytes "LIFETIME"), none, false, some reasonPibMismatch⟩ :=
  c2_pib_mismatch toyModel demoLifetimeLicense (asciiBytes "bbb") [] 0
    (base64url_encode demoLifetimeBytes)
    (base64url_encode (toyModel.sign demoSeed demoLifetimeBytes))
    demoLifetimeBytes (toyModel.sign demoSeed demoLifetimeBytes)
    ⟨.Lifetime, demoValidFrom, none, asciiBytes "aaa"⟩
    (by decide) (by decide) (by decide) (by decide) (by decide)

/-- On a two-part license that decodes, parses, matches the expected hash and
carries a verified signature, `verify_license` reduces to the time checks. -/
theorem verify_license_checkValidity (E : SigModel) (license expected pem : List Nat)
    (now : Int) (p0 p1 payloadBytes sigBytes : List Nat) (payload : IncomingLicensePayload)
    (hsplit : splitOnByte 46 license = [p0, p1])
    (h0 : base64url_decode p0 = some payloadBytes)
    (h1 : base64url_decode p1 = some sigBytes)
    (hp : parseIncomingLicensePayload payloadBytes = some payload)
    (hpib : payload.pib_hash = expected)
    (hsig : verify_ed25519_signature E pem payloadBytes sigBytes = .ok ()) :
    verify_license E license expected pem now = checkValidity payload now := by
  rw [verify_license_two E license expected pem now p0 p1 hsplit]
  unfold verifyTwoParts
  rw [h0, h1]
  dsimp only
  rw [hp]
  dsimp only
  unfold verifyWithPayload
  rw [if_neg (fun hcon => hcon hpib), hsig]

/-- C5: with hash and signature verified, (a) `now < valid_from` yields the
`not_yet_valid` verdict; (b) a Yearly payload with `valid_until` absent is a
fatal `Err`; (c) for a Yearly payload with `valid_until` parsing to `tu`,
verification at `now ≤ tu` (including `now = tu`) is valid and at `tu < now`
is the `expired` verdict — both time comparisons strict, so the boundary
instants themselves count as valid. -/
theorem c5_time_checks (E : SigModel) (license expected pem : List Nat) (now tf : Int)
    (p0 p1 payloadBytes sigBytes : List Nat) (payload : IncomingLicensePayload)
    (hsplit : splitOnByte 46 license = [p0, p1])
    (h0 : base64url_decode p0 = some payloadBytes)
    (h1 : base64url_decode p1 = some sigBytes)
    (hp : parseIncomingLicensePayload payloadBytes = some payload)
    (hpib : payload.pib_hash = expected)
    (hsig : verify_ed25519_signature E pem payloadBytes sigBytes = .ok ())
    (hvf : parseRfc3339 payload.valid_from = some tf) :
    (now < tf → verify_license E license expected pem now =
      .ok ⟨some (ltDebugUpper payload.license_type), payload.valid_until, false,
        some reasonNotYetValid⟩) ∧
    (tf ≤ now → payload.license_type = .Yearly → payload.valid_until = none →
      verify_license E license expected pem now = .error errMissingValidUntil) ∧
    (∀ u tu, tf ≤ now → payload.license_type = .Yearly → payload.valid_until = some u →
      parseRfc3339 u = some tu →
      (now ≤ tu → verify_license E license expected pem now =
        .ok ⟨some (asciiBytes "YEARLY"), some u, true, none⟩) ∧
      (tu < now → verify_license E license expected pem now =
        .ok ⟨some (asciiBytes "YEARLY"), some u, false, some reasonExpired⟩)) := by
  have hred := verify_license_checkValidity E license expected pem now p0 p1
    payloadBytes sigBytes payload hsplit h0 h1 hp hpib hsig
  refine ⟨?_, ?_, ?_⟩
  · intro hn
    rw [hred]
    unfold checkValidity
    rw [hvf]
    dsimp only
    rw [if_pos hn]
  · intro hn hyt hvu
    rw [hred]
    unfold checkValidity
    rw [hvf]
    dsimp only
    rw [if_neg (by omega), hyt]
    dsimp only
    rw [hvu]
  · intro u tu hn hyt hvu hpu
    constructor
    · intro hle
      rw [hred]
      unfold checkValidity
      rw [hvf]
      dsimp only
      rw [if_neg (by omega), hyt]
      dsimp only
      rw [hvu]
      dsimp only
      rw [hpu]
      dsimp only
      rw [if_neg (by omega)]
    · intro hlt
      rw [hred]
      unfold checkValidity
      rw [hvf]
      dsimp only
      rw [if_neg (by omega), hyt]
      dsimp only
      rw [hvu]
      dsimp only
      rw [hpu]
      dsimp only
      rw [if_pos hlt]

/-- C5 witness: the toy-signed Yearly license with `valid_until`
2025-12-31T23:59:59Z, verified well after that instant, is the `expired`
verdict. -/
theorem c5_witness :
    verify_license toyModel demoYearlyLicense (asciiBytes "aaa") demoPem
      1800000000000000000 =
      .ok ⟨some (asciiBytes "YEARLY"), some demoValidUntil, false, some reasonExpired⟩ :=
  ((c5_time_checks toyModel demoYearlyLicense (asciiBytes "aaa") demoPem
      1800000000000000000 1735689600000000000
      (base64url_encode demoYearlyBytes)
      (base64url_encode (toyModel.sign demoSeed demoYearlyBytes))
      demoYearlyBytes (toyModel.sign demoSeed demoYearlyBytes)
      ⟨.Yearly, demoValidFrom, some demoValidUntil, asciiBytes "aaa"⟩
      (by decide) (by decide) (by decide) (by decide) (by decide) (by decide)
      (by decide)).2.2 demoValidUntil 1767225599000000000
      (by decide) (by decide) (by decide) (by decide)).2 (by decide)

/-- C6: with hash and signature verified and `valid_from ≤ now`, a Lifetime
payload yields `is_valid = true`, `reason = None`, `license_type = LIFETIME`,
`valid_until = None`, for every such `now`, arbitrarily far in the future. -/
theorem c6_lifetime (E : SigModel) (license expected pem : List Nat) (now tf : Int)
    (p0 p1 payloadBytes sigBytes : List Nat) (payload : IncomingLicensePayload)
    (hsplit : splitOnByte 46 license = [p0, p1])
    (h0 : base64url_decode p0 = some payloadBytes)
    (h1 : base64url_decode p1 = some sigBytes)
    (hp : parseIncomingLicensePayload payloadBytes = some payload)
    (hpib : payload.pib_hash = expected)
    (hsig : verify_ed25519_signature E pem payloadBytes sigBytes = .ok ())
    (hvf : parseRfc3339 payload.valid_from = some tf)
    (hlt : payload.license_type = .Lifetime)
    (htf : tf ≤ now) :
    verify_license E license expected pem now =
      .ok ⟨some (asciiBytes "LIFETIME"), none, true, none⟩ := by
  have hred := verify_license_checkValidity E license expected pem now p0 p1
    payloadBytes sigBytes payload hsplit h0 h1 hp hpib hsig
  rw [hred]
  unfold checkValidity
  rw [hvf]
  dsimp only
  rw [if_neg (by omega), hlt]

/-- C6 witness: the toy-signed Lifetime license verified 100 years after its
`valid_from` instant (2025-01-01T00:00:00Z) is valid. -/
theorem c6_witness :
    verify_license toyModel demoLifetimeLicense (asciiBytes "aaa") demoPem
      4891363200000000000 =
      .ok ⟨some (asciiBytes "LIFETIME"), none, true, none⟩ :=
  c6_lifetime toyModel demoLifetimeLicense (asciiBytes "aaa") demoPem
    4891363200000000000 1735689600000000000
    (base64url_encode demoLifetimeBytes)
    (base64url_encode (toyModel.sign demoSeed demoLifetimeBytes))
    demoLifetimeBytes (toyModel.sign demoSeed demoLifetimeBytes)
    ⟨.Lifetime, demoValidFrom, none, asciiBytes "aaa"⟩
    (by decide) (by decide) (by decide) (by decide) (by decide) (by decide)
    (by decide) (by decide) (by decide)

/-- C8: encoding a 32-byte Ed25519 public key to SPKI PEM (12-byte DER
prefix, standard padded base64, PEM guard lines) then decoding recovers the
original 32 key bytes; and decoding fails with the unsupported-key-format
error whenever the base64-decoded body is not exactly 44 bytes or its first
12 bytes differ from the fixed DER prefix. -/
theorem c8_key_codec_round_trip (E : SigModel) :
    (∀ pk : List Nat, pk.length = 32 → bytesOk pk → E.keyOk pk = true →
      parse_ed25519_public_key_from_spki_pem E (public_key_pem pk) = .ok pk) ∧
    (∀ pem der : List Nat, b64StdDecode (pemBody pem) = some der →
      der.length ≠ 44 ∨ der.take 12 ≠ spkiHeader →
      parse_ed25519_public_key_from_spki_pem E pem = .error errUnsupportedKey) := by
  constructor
  · intro pk h1 h2 h3
    exact parse_spki_public_key_pem E pk h1 h2 h3
  · intro pem der hdec hbad
    unfold parse_ed25519_public_key_from_spki_pem
    rw [hdec]
    dsimp only
    rw [if_pos hbad]

/-- C8 witness: the all-zero 32-byte key round-trips through the PEM codec. -/
theorem c8_witness :
    parse_ed25519_public_key_from_spki_pem toyModel
      (public_key_pem (List.replicate 32 0)) = .ok (List.replicate 32 0) :=
  (c8_key_codec_round_trip toyModel).1 (List.replicate 32 0)
    (by decide) (by decide) (by decide)

theorem bytesOk_base64url_encode {l : List Nat} (h : bytesOk l) :
    bytesOk (base64url_encode l) := by
  intro c hc
  have hmem := b64EncodeCore_mem_alphabet b64UrlAlphabet b64UrlChar
    (fun v hv => b64UrlChar_mem ⟨v, hv⟩) l h c hc
  have := (b64UrlAlphabet_props c hmem).2.1
  omega

theorem trimBytes_base64url_encode {l : List Nat} (h : bytesOk l) :
    trimBytes (base64url_encode l) = base64url_encode l := by
  apply trimBytes_eq_self
  intro c hc
  have hmem := b64EncodeCore_mem_alphabet b64UrlAlphabet b64UrlChar
    (fun v hv => b64UrlChar_mem ⟨v, hv⟩) l h c hc
  exact (b64UrlAlphabet_props c hmem).2.2.2.2.2.2

theorem base64url_encode_ne_nil {l : List Nat} (h : l ≠ []) :
    base64url_encode l ≠ [] := by
  intro hn
  have hlen := b64EncodeCore_length b64UrlChar l
  rw [show b64EncodeCore b64UrlChar l = base64url_encode l from rfl, hn] at hlen
  simp only [List.length_nil] at hlen
  have : l.length = 0 := by omega
  exact h (List.length_eq_zero.mp this)

/-- C10: the app-side activation-code writer and the issuer-side reader are
round-trip compatible: for every `pib_hash`, `app_id`, `issued_at` and
16-byte nonce draw, `generate_activation_code` returns `Ok`, and
`decode_activation_code` on its output recovers exactly the same `pib_hash`,
`issued_at` and `app_id`, plus a nonce string that base64url-decodes to the
16 drawn bytes, succeeding whenever `pib_hash` is non-empty and
`issued_at > 0`. -/
theorem c10_activation_code_round_trip (ph app : List Nat) (ia : Int)
    (nonce : List Nat) (hph : bytesOk ph) (happ : bytesOk app) (hpe : ph ≠ [])
    (hia : 0 < ia) (hn16 : nonce.length = 16) (hnb : bytesOk nonce) :
    ∃ code, generate_activation_code ph app ia nonce = .ok code ∧
      ∃ act, decode_activation_code code = .ok act ∧
        act.pib_hash = ph ∧ act.issued_at = ia ∧ act.app_id = app ∧
        base64url_decode act.nonce = some nonce := by
  refine ⟨_, rfl, ?_⟩
  have hsb : bytesOk (serializeActivationPayload ⟨ph, ia, base64url_encode nonce, app⟩) :=
    serializeActivationPayload_bytesOk _ hph (bytesOk_base64url_encode hnb) happ
  have hnne : base64url_encode nonce ≠ [] :=
    base64url_encode_ne_nil (by intro hn; rw [hn] at hn16; simp at hn16)
  unfold decode_activation_code
  rw [trimBytes_base64url_encode hsb, base64url_decode_encode _ hsb]
  dsimp only
  rw [parseActivationPayload_serialize _ hia]
  dsimp only
  rw [if_neg hpe, if_neg (by omega), if_neg hnne]
  exact ⟨_, rfl, rfl, rfl, rfl, base64url_decode_encode nonce hnb⟩

/-- C10 witness: a concrete activation code round-trips. -/
theorem c10_witness :
    ∃ code, generate_activation_code (asciiBytes "aaa") expectedAppId 5
        (List.replicate 16 1) = .ok code ∧
      ∃ act, decode_activation_code code = .ok act ∧
        act.pib_hash = asciiBytes "aaa" ∧ act.issued_at = 5 ∧
        act.app_id = expectedAppId ∧
        base64url_decode act.nonce = some (List.replicate 16 1) :=
  c10_activation_code_round_trip (asciiBytes "aaa") expectedAppId 5
    (List.replicate 16 1) (by decide) (by decide) (by decide) (by decide)
    (by decide) (by decide)

/-- Acceptance inversion: an `is_valid = true` verdict out of the two-part
pipeline requires both decodes, a parsed payload whose hash matches, a parsed
public key, and a signature passing strict verification. -/
theorem verifyTwoParts_accept_inversion (E : SigModel) (p0 p1 expected pem : List Nat)
    (now : Int) (v : VerifiedLicenseInfo)
    (h : verifyTwoParts E p0 p1 expected pem now = .ok v) (hv : v.is_valid = true) :
    ∃ payloadBytes sigBytes payload pk,
      base64url_decode p0 = some payloadBytes ∧
      base64url_decode p1 = some sigBytes ∧
      parseIncomingLicensePayload payloadBytes = some payload ∧
      payload.pib_hash = expected ∧
      parse_ed25519_public_key_from_spki_pem E pem = .ok pk ∧
      E.verifyStrict pk payloadBytes sigBytes = true := by
  cases hd0 : base64url_decode p0 with
  | none =>
    unfold verifyTwoParts at h
    rw [hd0] at h
    exact absurd h (by simp)
  | some pb =>
    cases hd1 : base64url_decode p1 with
    | none =>
      unfold verifyTwoParts at h
      rw [hd0] at h
      dsimp only at h
      rw [hd1] at h
      exact absurd h (by simp)
    | some sb =>
      cases hpp : parseIncomingLicensePayload pb with
      | none =>
        unfold verifyTwoParts at h
        rw [hd0] at h
        dsimp only at h
        rw [hd1] at h
        dsimp only at h
        rw [hpp] at h
        exact absurd h (by simp)
      | some payload =>
        unfold verifyTwoParts at h
        rw [hd0] at h
        dsimp only at h
        rw [hd1] at h
        dsimp only at h
        rw [hpp] at h
        dsimp only at h
        unfold verifyWithPayload at h
        by_cases hpib : payload.pib_hash = expected
        · rw [if_neg (fun hc => hc hpib)] at h
          cases hvs : verify_ed25519_signature E pem pb sb with
          | error e =>
            rw [hvs] at h
            exact absurd h (by simp)
          | ok uu =>
            have hsig := hvs
            unfold verify_ed25519_signature at hsig
            cases hpk : parse_ed25519_public_key_from_spki_pem E pem with
            | error e =>
              rw [hpk] at hsig
              exact absurd hsig (by simp)
            | ok pk =>
              rw [hpk] at hsig
              dsimp only at hsig
              by_cases hsl : sb.length ≠ 64
              · rw [if_pos hsl] at hsig
                exact absurd hsig (by simp)
              · rw [if_neg hsl] at hsig
                by_cases hstrict : E.verifyStrict pk pb sb = true
                · exact ⟨pb, sb, payload, pk, rfl, rfl, hpp, hpib, rfl, hstrict⟩
                · rw [if_neg hstrict] at hsig
                  exact absurd hsig (by simp)
        · rw [if_pos hpib] at h
          simp only [Except.ok.injEq] at h
          rw [← h] at hv
          simp at hv

/-- C3 counterexample: flipping bit 6 of byte 9 (an `n`, inside the payload
segment) of a valid toy-signed Lifetime license turns it into a `.`; the
claim predicts a fatal `Err`, but `verify_license` returns the *non-fatal*
`invalid_format` verdict (`Ok`), because the string now splits into three
parts and the format check short-circuits everything else. -/
theorem c3_counterexample :
    verify_license toyModel demoLifetimeLicense (asciiBytes "aaa") demoPem
      1735689700000000000 = .ok ⟨some (asciiBytes "LIFETIME"), none, true, none⟩ ∧
    9 < (base64url_encode demoLifetimeBytes).length ∧
    verify_license toyModel (flipByteBit demoLifetimeLicense 9 6) (asciiBytes "aaa")
      demoPem 1735689700000000000 =
      .ok ⟨none, none, false, some reasonInvalidFormat⟩ := by
  refine ⟨?_, by decide, by decide⟩
  exact c6_lifetime toyModel demoLifetimeLicense (asciiBytes "aaa") demoPem
    1735689700000000000 1735689600000000000
    (base64url_encode demoLifetimeBytes)
    (base64url_encode (toyModel.sign demoSeed demoLifetimeBytes))
    demoLifetimeBytes (toyModel.sign demoSeed demoLifetimeBytes)
    ⟨.Lifetime, demoValidFrom, none, asciiBytes "aaa"⟩
    (by decide) (by decide) (by decide) (by decide) (by decide) (by decide)
    (by decide) (by decide) (by decide)

/-- C3 (amended): a single-bit flip anywhere in a license string is never
silently accepted: if the flipped string verifies with `is_valid = true`,
then its decoded payload/signature pair still passes strict Ed25519
verification under the embedded key with a matching identifier hash — i.e.
the flip produced a valid signature, which the signature scheme's
unforgeability rules out.  All other outcomes are a fatal `Err` or a
non-accepting verdict (`invalid_format` when the flip introduced a
separator byte, `pib_mismatch` when only the identifier hash changed). -/
theorem c3_bitflip_no_silent_accept (E : SigModel) (s : List Nat) (i k : Nat)
    (expected pem : List Nat) (now : Int) (v : VerifiedLicenseInfo)
    (h : verify_license E (flipByteBit s i k) expected pem now = .ok v)
    (hv : v.is_valid = true) :
    ∃ p0 p1 payloadBytes sigBytes payload pk,
      splitOnByte 46 (flipByteBit s i k) = [p0, p1] ∧
      base64url_decode p0 = some payloadBytes ∧
      base64url_decode p1 = some sigBytes ∧
      parseIncomingLicensePayload payloadBytes = some payload ∧
      payload.pib_hash = expected ∧
      parse_ed25519_public_key_from_spki_pem E pem = .ok pk ∧
      E.verifyStrict pk payloadBytes sigBytes = true := by
  by_cases hlen : (splitOnByte 46 (flipByteBit s i k)).length = 2
  · obtain ⟨p0, p1, hsplit⟩ := List.length_eq_two.mp hlen
    rw [verify_license_two E _ expected pem now p0 p1 hsplit] at h
    obtain ⟨pb, sb, payload, pk, h1, h2, h3, h4, h5, h6⟩ :=
      verifyTwoParts_accept_inversion E p0 p1 expected pem now v h hv
    exact ⟨p0, p1, pb, sb, payload, pk, hsplit, h1, h2, h3, h4, h5, h6⟩
  · rw [verify_license_not_two E _ expected pem now hlen] at h
    simp only [Except.ok.injEq] at h
    rw [← h] at hv
    simp [invalidFormatVerdict] at hv

/-- C3 (amended) witness: flipping bit 0 of byte 3 of an already-flipped
valid license restores the original, which is accepted; the conclusion
exhibits the strict-verifying pair. -/
theorem c3_witness :
    ∃ p0 p1 payloadBytes sigBytes payload pk,
      splitOnByte 46 (flipByteBit (flipByteBit demoLifetimeLicense 3 0) 3 0) =
        [p0, p1] ∧
      base64url_decode p0 = some payloadBytes ∧
      base64url_decode p1 = some sigBytes ∧
      parseIncomingLicensePayload payloadBytes = some payload ∧
      payload.pib_hash = asciiBytes "aaa" ∧
      parse_ed25519_public_key_from_spki_pem toyModel demoPem = .ok pk ∧
      toyModel.verifyStrict pk payloadBytes sigBytes = true :=
  c3_bitflip_no_silent_accept toyModel (flipByteBit demoLifetimeLicense 3 0) 3 0
    (asciiBytes "aaa") demoPem 1735689700000000000
    ⟨some (asciiBytes "LIFETIME"), none, true, none⟩ (by decide) (by decide)

theorem signing_key_from_dev_seed_ok : signing_key_from_dev_seed = .ok devSeedBytes := by
  decide

/-- C7: the issuer sets `valid_from` to the current UTC time truncated to
whole seconds (`nowNs.ediv 1000000000`); for a Yearly license `valid_until`
is exactly `valid_from + 365 days` (a fixed 31536000 seconds, no leap-year
or calendar adjustment); for a Lifetime license the serialized payload is
the explicit three-field JSON object with no `valid_until` key at all
(absent, not null). -/
theorem c7_issuer_validity_window (E : SigModel) (code : List Nat)
    (act : ActivationCodePayload) (nowNs : Int) (vf vu : List Nat)
    (hdec : decode_activation_code code = .ok act)
    (happ : act.app_id = expectedAppId)
    (hvf : formatRfc3339 (nowNs.ediv 1000000000) = some vf)
    (hvu : formatRfc3339 (nowNs.ediv 1000000000 + 31536000) = some vu) :
    (∃ sig, generate_license E code .Yearly nowNs =
        .ok (base64url_encode (serializeLicensePayload
          ⟨.Yearly, vf, some vu, act.pib_hash⟩) ++ 46 :: base64url_encode sig)) ∧
    (∃ sig, generate_license E code .Lifetime nowNs =
        .ok (base64url_encode (serializeLicensePayload
          ⟨.Lifetime, vf, none, act.pib_hash⟩) ++ 46 :: base64url_encode sig)) ∧
    (∀ lt : LicenseType, ∀ vfx ph : List Nat,
      serializeLicensePayload ⟨lt, vfx, none, ph⟩ =
        keyLicenseType ++ jsonEscape (ltName lt) ++ [34] ++ keyValidFrom ++
        jsonEscape vfx ++ [34] ++ keyPibHash ++ jsonEscape ph ++ [34] ++ [125]) := by
  refine ⟨?_, ?_, ?_⟩
  · unfold generate_license
    rw [hdec]
    dsimp only
    rw [if_neg (fun hc => hc happ), hvf]
    dsimp only
    rw [hvu]
    dsimp only
    unfold buildLicense
    rw [signing_key_from_dev_seed_ok]
    exact ⟨_, rfl⟩
  · unfold generate_license
    rw [hdec]
    dsimp only
    rw [if_neg (fun hc => hc happ), hvf]
    dsimp only
    unfold buildLicense
    rw [signing_key_from_dev_seed_ok]
    exact ⟨_, rfl⟩
  · intro lt vfx ph
    unfold serializeLicensePayload
    dsimp only
    simp

/-- C7 witness: issuing a Yearly license at 2025-01-01T00:00:00.123456789Z
truncates `valid_from` to 2025-01-01T00:00:00Z and sets `valid_until` to
2026-01-01T00:00:00Z, exactly 365 days later. -/
theorem c7_witness :
    ∃ sig, generate_license toyModel demoActivationCode .Yearly
        1735689600123456789 =
      .ok (base64url_encode (serializeLicensePayload
        ⟨.Yearly, asciiBytes "2025-01-01T00:00:00Z",
          some (asciiBytes "2026-01-01T00:00:00Z"), asciiBytes "aaa"⟩) ++
        46 :: base64url_encode sig) :=
  (c7_issuer_validity_window toyModel demoActivationCode
    ⟨asciiBytes "aaa", 5, base64url_encode (List.replicate 16 1), expectedAppId⟩
    1735689600123456789 (asciiBytes "2025-01-01T00:00:00Z")
    (asciiBytes "2026-01-01T00:00:00Z")
    (by decide) (by decide) (by decide) (by decide)).1

/-- C9: the issuer's generate operation fails exactly when the activation
code is malformed base64url or JSON, or its `pib_hash` is empty, or its
`issued_at` is not strictly positive, or its `nonce` is empty, or its
`app_id` differs from the expected product identifier; otherwise issuance
proceeds.  Quantified over every `ActJsonModel` — every possible behaviour
of `serde_json::from_slice::<ActivationCodePayload>` — so the theorem
asserts exactly the issuer's own control flow and no fact about
serde_json's acceptance language.  The five validation-step messages are
pairwise distinct (the app-id failure additionally embeds the offending
value).  The hypotheses restrict `now` to RFC3339-formattable instants
(years 0–9999), the only ones the `time` crate can print. -/
theorem c9_generate_failure_iff (J : ActJsonModel) (E : SigModel) (code : List Nat)
    (kind : LicenseKind) (nowNs : Int)
    (hf1 : formatRfc3339 (nowNs.ediv 1000000000) ≠ none)
    (hf2 : kind = .Yearly → formatRfc3339 (nowNs.ediv 1000000000 + 31536000) ≠ none) :
    ((∃ e, generate_license_with J E code kind nowNs = .error e) ↔
      (base64url_decode (trimBytes code) = none ∨
       ∃ bs, base64url_decode (trimBytes code) = some bs ∧
         (J.parse bs = none ∨
          ∃ act, J.parse bs = some act ∧
            (act.pib_hash = [] ∨ act.issued_at ≤ 0 ∨ act.nonce = [] ∨
             act.app_id ≠ expectedAppId)))) ∧
    [errActB64, errActJson, errActMissingPib, errActIssuedAt,
      errActMissingNonce].Pairwise (fun x y => x ≠ y) := by
  constructor
  · have hbuild : ∀ p : LicensePayload, ∃ out, buildLicense E p = .ok out := by
      intro p
      unfold buildLicense
      rw [signing_key_from_dev_seed_ok]
      exact ⟨_, rfl⟩
    have hgen : ∀ act, decode_activation_code_with J code = .ok act →
        act.app_id = expectedAppId →
        ∃ out, generate_license_with J E code kind nowNs = .ok out := by
      intro act hdec happ
      unfold generate_license_with
      rw [hdec]
      dsimp only
      rw [if_neg (fun hc => hc happ)]
      cases hfv : formatRfc3339 (nowNs.ediv 1000000000) with
      | none => exact absurd hfv hf1
      | some vf =>
        dsimp only
        cases kind with
        | Lifetime =>
          dsimp only
          exact hbuild _
        | Yearly =>
          cases hfu : formatRfc3339 (nowNs.ediv 1000000000 + 31536000) with
          | none => exact absurd hfu (hf2 rfl)
          | some vu =>
            dsimp only
            exact hbuild _
    constructor
    · rintro ⟨e, he⟩
      cases hb : base64url_decode (trimBytes code) with
      | none => exact Or.inl rfl
      | some bs =>
        cases hp : J.parse bs with
        | none => exact Or.inr ⟨bs, rfl, Or.inl hp⟩
        | some act =>
          by_cases h1 : act.pib_hash = []
          · exact Or.inr ⟨bs, rfl, Or.inr ⟨act, hp, Or.inl h1⟩⟩
          by_cases h2 : act.issued_at ≤ 0
          · exact Or.inr ⟨bs, rfl, Or.inr ⟨act, hp, Or.inr (Or.inl h2)⟩⟩
          by_cases h3 : act.nonce = []
          · exact Or.inr ⟨bs, rfl, Or.inr ⟨act, hp, Or.inr (Or.inr (Or.inl h3))⟩⟩
          by_cases h4 : act.app_id = expectedAppId
          · have hdec : decode_activation_code_with J code = .ok act := by
              unfold decode_activation_code_with
              rw [hb]
              dsimp only
              rw [hp]
              dsimp only
              rw [if_neg h1, if_neg h2, if_neg h3]
            obtain ⟨out, hout⟩ := hgen act hdec h4
            rw [hout] at he
            exact absurd he (by simp)
          · exact Or.inr ⟨bs, rfl, Or.inr ⟨act, hp, Or.inr (Or.inr (Or.inr h4))⟩⟩
    · intro hcond
      cases hg : generate_license_with J E code kind nowNs with
      | error e => exact ⟨e, rfl⟩
      | ok out =>
        exfalso
        unfold generate_license_with at hg
        cases hd : decode_activation_code_with J code with
        | error e =>
          rw [hd] at hg
          exact absurd hg (by simp)
        | ok act =>
          rw [hd] at hg
          dsimp only at hg
          by_cases happ : act.app_id = expectedAppId
          · have hdecinv := hd
            unfold decode_activation_code_with at hdecinv
            cases hb2 : base64url_decode (trimBytes code) with
            | none =>
              rw [hb2] at hdecinv
              exact absurd hdecinv (by simp)
            | some bs2 =>
              rw [hb2] at hdecinv
              dsimp only at hdecinv
              cases hp2 : J.parse bs2 with
              | none =>
                rw [hp2] at hdecinv
                exact absurd hdecinv (by simp)
              | some act2 =>
                rw [hp2] at hdecinv
                dsimp only at hdecinv
                by_cases k1 : act2.pib_hash = []
                · rw [if_pos k1] at hdecinv
                  exact absurd hdecinv (by simp)
                · rw [if_neg k1] at hdecinv
                  by_cases k2 : act2.issued_at ≤ 0
                  · rw [if_pos k2] at hdecinv
                    exact absurd hdecinv (by simp)
                  · rw [if_neg k2] at hdecinv
                    by_cases k3 : act2.nonce = []
                    · rw [if_pos k3] at hdecinv
                      exact absurd hdecinv (by simp)
                    · rw [if_neg k3] at hdecinv
                      simp only [Except.ok.injEq] at hdecinv
                      subst hdecinv
                      rcases hcond with hc | ⟨bs, hbs, hc | ⟨a3, ha3, hc⟩⟩
                      · rw [hb2] at hc
                        exact absurd hc (by simp)
                      · rw [hb2] at hbs
                        simp only [Option.some.injEq] at hbs
                        subst hbs
                        rw [hp2] at hc
                        exact absurd hc (by simp)
                      · rw [hb2] at hbs
                        simp only [Option.some.injEq] at hbs
                        subst hbs
                        rw [hp2] at ha3
                        simp only [Option.some.injEq] at ha3
                        subst ha3
                        rcases hc with hc | hc | hc | hc
                        · exact k1 hc
                        · exact k2 hc
                        · exact k3 hc
                        · exact hc happ
          · rw [if_pos happ] at hg
            exact absurd hg (by simp)
  · decide

/-- C9 witness: instantiating the canonical-grammar model (which agrees with
serde_json on the writer-emitted bytes evaluated here) and `now` in the
formattable range: issuing from a well-formed activation code does not fail
(the failure disjunction is false), and issuing from a non-base64url code
fails. -/
theorem c9_witness :
    ¬(∃ e, generate_license_with canonicalActJson toyModel demoActivationCode
        .Lifetime 1735689600123456789 = .error e) ∧
    (∃ e, generate_license_with canonicalActJson toyModel (asciiBytes "!!")
        .Lifetime 1735689600123456789 = .error e) := by
  constructor
  · rw [(c9_generate_failure_iff canonicalActJson toyModel demoActivationCode
      .Lifetime 1735689600123456789 (by decide) (fun hk => by cases hk)).1]
    decide
  · rw [(c9_generate_failure_iff canonicalActJson toyModel (asciiBytes "!!")
      .Lifetime 1735689600123456789 (by decide) (fun hk => by cases hk)).1]
    decide

/-- C1: round trip.  For every License Payload serialized to JSON bytes and
signed with key pair `seed` under any signature model, verifying the license
string (base64url payload, `.`, base64url signature) with the public half in
SPKI PEM form, an expected hash equal to the payload's `pib_hash`, and a
time `now` with `valid_from ≤ now` (and `now ≤ valid_until` for a Yearly
payload) returns `Ok` with `is_valid = true` and `reason = None`. -/
theorem c1_round_trip (E : SigModel) (seed : List Nat) (p : LicensePayload)
    (now tf : Int)
    (hvfb : bytesOk p.valid_from) (hphb : bytesOk p.pib_hash)
    (hvub : ∀ u, p.valid_until = some u → bytesOk u)
    (hvf : parseRfc3339 p.valid_from = some tf) (hnow : tf ≤ now)
    (hy : p.license_type = .Yearly → ∃ u tu, p.valid_until = some u ∧
      parseRfc3339 u = some tu ∧ now ≤ tu) :
    ∃ v, verify_license E
        (base64url_encode (serializeLicensePayload p) ++ 46 ::
          base64url_encode (E.sign seed (serializeLicensePayload p)))
        p.pib_hash (public_key_pem (E.pubkey seed)) now = .ok v ∧
      v.is_valid = true ∧ v.reason = none := by
  have hsb : bytesOk (serializeLicensePayload p) :=
    serializeLicensePayload_bytesOk p hvfb hphb hvub
  have hsigb : bytesOk (E.sign seed (serializeLicensePayload p)) := E.sign_bytes seed _
  have hsplit : splitOnByte 46
      (base64url_encode (serializeLicensePayload p) ++ 46 ::
        base64url_encode (E.sign seed (serializeLicensePayload p))) =
      [base64url_encode (serializeLicensePayload p),
       base64url_encode (E.sign seed (serializeLicensePayload p))] := by
    rw [splitOnByte_append_sep 46 _ _ (base64url_encode_no_dot _ hsb),
      splitOnByte_no_sep 46 _ (base64url_encode_no_dot _ hsigb)]
  have hred := verify_license_checkValidity E _ p.pib_hash
    (public_key_pem (E.pubkey seed)) now _ _
    (serializeLicensePayload p) (E.sign seed (serializeLicensePayload p))
    ⟨p.license_type, p.valid_from, p.valid_until, p.pib_hash⟩
    hsplit (base64url_decode_encode _ hsb) (base64url_decode_encode _ hsigb)
    (parseIncomingLicensePayload_serialize p) rfl
    (verify_ed25519_signature_sign E seed (serializeLicensePayload p))
  rw [hred]
  unfold checkValidity
  dsimp only
  rw [hvf]
  dsimp only
  rw [if_neg (by omega)]
  cases hplt : p.license_type with
  | Lifetime =>
    dsimp only
    exact ⟨_, rfl, rfl, rfl⟩
  | Yearly =>
    obtain ⟨u, tu, hvu, hpu, hle⟩ := hy hplt
    dsimp only
    rw [hvu]
    dsimp only
    rw [hpu]
    dsimp only
    rw [if_neg (by omega)]
    exact ⟨_, rfl, rfl, rfl⟩

/-- C1 witness: the toy-signed Yearly demo license verified at its
`valid_from` instant. -/
theorem c1_witness :
    ∃ v, verify_license toyModel
        (base64url_encode (serializeLicensePayload demoYearlyPayload) ++ 46 ::
          base64url_encode (toyModel.sign demoSeed
            (serializeLicensePayload demoYearlyPayload)))
        demoYearlyPayload.pib_hash (public_key_pem (toyModel.pubkey demoSeed))
        1735689600000000000 = .ok v ∧
      v.is_valid = true ∧ v.reason = none :=
  c1_round_trip toyModel demoSeed demoYearlyPayload 1735689600000000000
    1735689600000000000 (by decide) (by decide)
    (fun u hu => by
      simp only [demoYearlyPayload, Option.some.injEq] at hu
      rw [← hu]
      decide)
    (by decide) (by decide)
    (fun _ => ⟨demoValidUntil, 1767225599000000000, rfl, by decide, by decide⟩)
